import Mathlib

/-!
Verification of the historical sync engine of a blockchain indexing framework.

Shallow embedding of `HistoricalSyncService` (`sync-historical/service.ts`) and
`SyncGateway` (`sync-gateway/service.ts`). Block numbers, checkpoints and
timestamps are embedded as `Int` (JS numbers used integrally); `Infinity`
arising from `Math.min`/`Math.max` of empty argument lists is embedded
explicitly where the source can produce it.
-/

namespace Ponder

/-- `Number.MAX_SAFE_INTEGER` (2^53 - 1), used for task priorities. -/
def MAX_SAFE_INTEGER : Int := 9007199254740991

/-- A JS number that is either finite or `Infinity`, as produced by
`Math.min(...xs)` when `xs` may be empty. -/
inductive JsNum where
  | fin : Int → JsNum
  | inf : JsNum
deriving Repr, DecidableEq

/-- `Math.min` over a (possibly empty) list of finite numbers:
the empty minimum is `Infinity`. -/
def jsMinList (l : List Int) : JsNum :=
  match l with
  | [] => JsNum.inf
  | x :: xs => JsNum.fin (xs.foldl min x)

/-- `a < b` where `b` may be `Infinity`. -/
def jsLtFin (a : Int) : JsNum → Bool
  | JsNum.fin b => a < b
  | JsNum.inf => true

/-- `a ≤ b` where `b` may be `Infinity`. -/
def jsLeFin (a : Int) : JsNum → Bool
  | JsNum.fin b => a ≤ b
  | JsNum.inf => true

/-- `a < b` on possibly-infinite JS numbers. -/
def jsLt : JsNum → JsNum → Bool
  | JsNum.fin a, b => jsLtFin a b
  | JsNum.inf, _ => false

/-- `a ≤ b` on possibly-infinite JS numbers. -/
def jsLe : JsNum → JsNum → Bool
  | JsNum.fin a, b => jsLeFin a b
  | JsNum.inf, JsNum.inf => true
  | JsNum.inf, JsNum.fin _ => false

/-! ## Logs and log intervals -/

/-- An RPC log, reduced to the fields the engine reads: its block number
(`hexToNumber(log.blockNumber)`) and its transaction hash. -/
structure RpcLog where
  blockNumber : Int
  transactionHash : String
deriving Repr, DecidableEq

/-- A log interval as produced by `buildLogIntervals`. The source stores the
transaction hashes in a `Set`; we keep the insertion-ordered list of distinct
hashes. -/
structure LogInterval where
  startBlock : Int
  endBlock : Int
  logs : List RpcLog
  transactionHashes : List String
deriving Repr, DecidableEq

/-- `Array.prototype.sort((a, b) => a - b)`: ascending numeric sort. -/
def sortAsc (l : List Int) : List Int :=
  List.insertionSort (fun a b => a ≤ b) l

/-- The distinct block numbers appearing in `logs`, in ascending order: the
keys of the `txHashesByBlockNumber` record, sorted numerically. -/
def logBlockNumbers (logs : List RpcLog) : List Int :=
  sortAsc ((logs.map (·.blockNumber)).dedup)

/-- The logs of `logs` whose block number is `n`, in order
(`logsByBlockNumber[n]`). -/
def logsAtBlock (logs : List RpcLog) (n : Int) : List RpcLog :=
  logs.filter (·.blockNumber = n)

/-- The distinct transaction hashes of the logs at block `n`
(`txHashesByBlockNumber[n]`, a `Set` in the source). -/
def txHashesAtBlock (logs : List RpcLog) (n : Int) : List String :=
  ((logsAtBlock logs n).map (·.transactionHash)).dedup

/-- The interval-building loop of `buildLogIntervals`: starting at `prev`,
each required block `B` yields the interval `[prev, B]` owning the logs and
transaction hashes at `B`, and `prev` becomes `B + 1`. -/
def buildLogIntervalsLoop (logs : List RpcLog) : Int → List Int → List LogInterval
  | _, [] => []
  | prev, bn :: rest =>
      { startBlock := prev
        endBlock := bn
        logs := logsAtBlock logs bn
        transactionHashes := txHashesAtBlock logs bn } ::
        buildLogIntervalsLoop logs (bn + 1) rest

/-- The `requiredBlocks` array: the sorted distinct log block numbers, with
`toBlock` pushed at the end when not already present. -/
def requiredBlocksOf (toBlock : Int) (logs : List RpcLog) : List Int :=
  if toBlock ∈ logBlockNumbers logs then logBlockNumbers logs
  else logBlockNumbers logs ++ [toBlock]

/-- `buildLogIntervals({fromBlock, toBlock, logs})`: group the logs by block
number, sort the required blocks ascending, append `toBlock` if it is not
already required, then walk the required blocks emitting intervals. -/
def buildLogIntervals (fromBlock toBlock : Int) (logs : List RpcLog) :
    List LogInterval :=
  buildLogIntervalsLoop logs fromBlock (requiredBlocksOf toBlock logs)

/-! ## Interval algebra

The implementation file `utils/interval.ts` is not part of the sources here
(only its import is); the functions below are modelled from the spec, §4.1. -/

/-- Modelled from the spec: `utils/interval.ts` is missing from the sources.
Insert one closed interval into a sorted, non-overlapping, non-adjacent list,
coalescing overlaps and adjacencies (`[1,3] ∪ [4,6] = [1,6]`). -/
def insertInterval (x : Int × Int) : List (Int × Int) → List (Int × Int)
  | [] => [x]
  | (c, d) :: rest =>
      if x.2 + 1 < c then x :: (c, d) :: rest
      else if d + 1 < x.1 then (c, d) :: insertInterval x rest
      else insertInterval (min x.1 c, max x.2 d) rest

/-- Modelled from the spec: `utils/interval.ts` is missing from the sources.
`union(A, B)` over canonical interval lists. -/
def intervalUnion (a b : List (Int × Int)) : List (Int × Int) :=
  b.foldl (fun acc x => insertInterval x acc) a

/-- The parts of the closed interval `iv` not covered by `x`. -/
def subtractInterval (x iv : Int × Int) : List (Int × Int) :=
  (if iv.1 < x.1 then [(iv.1, min iv.2 (x.1 - 1))] else []) ++
  (if x.2 < iv.2 then [(max iv.1 (x.2 + 1), iv.2)] else [])

/-- Modelled from the spec: `utils/interval.ts` is missing from the sources.
`difference(A, B)`: subtract B's coverage from A, preserving sort and
non-overlap. -/
def intervalDifference (a b : List (Int × Int)) : List (Int × Int) :=
  b.foldl (fun acc x => (acc.map (subtractInterval x)).flatten) a

/-- Modelled from the spec: `utils/interval.ts` is missing from the sources.
`sum(A) = Σ (to - from + 1)`. -/
def intervalSum (a : List (Int × Int)) : Int :=
  (a.map (fun iv => iv.2 - iv.1 + 1)).sum

/-- Width-splitting loop for one interval, with structural fuel
(`(b - a + 1).toNat` steps always suffice for `1 ≤ maxWidth`). -/
def getChunksAux (maxWidth : Nat) : Nat → Int → Int → List (Int × Int)
  | 0, _, _ => []
  | fuel + 1, a, b =>
      if a > b then []
      else if b - a + 1 ≤ (maxWidth : Int) then [(a, b)]
      else (a, a + (maxWidth : Int) - 1) ::
        getChunksAux maxWidth fuel (a + (maxWidth : Int)) b

/-- Modelled from the spec: `utils/interval.ts` is missing from the sources.
`chunks(A, maxWidth)`: cover A by intervals of width at most `maxWidth`,
splitting only by width, never merging across gaps. -/
def getChunks (maxChunkSize : Nat) (intervals : List (Int × Int)) :
    List (Int × Int) :=
  (intervals.map (fun iv => getChunksAux maxChunkSize (iv.2 - iv.1 + 1).toNat iv.1 iv.2)).flatten

/-! ## Range progress tracker

Modelled from the spec, §4.2: `ProgressTracker` lives in the missing
`utils/interval.ts`. -/

/-- Modelled from the spec: a range progress tracker holds a target range and
the canonical list of completed sub-ranges. -/
structure ProgressTracker where
  target : Int × Int
  completed : List (Int × Int)
deriving Repr, DecidableEq

/-- Clip an interval to the target range; empty result if disjoint. -/
def clipToTarget (target iv : Int × Int) : List (Int × Int) :=
  let a := max iv.1 target.1
  let b := min iv.2 target.2
  if a ≤ b then [(a, b)] else []

/-- Modelled from the spec: `new(target, initialCompleted)` clips the initial
completed intervals to the target and stores them canonically. -/
def ProgressTracker.new (target : Int × Int) (completed : List (Int × Int)) :
    ProgressTracker :=
  { target
    completed :=
      ((completed.map (clipToTarget target)).flatten).foldl
        (fun acc x => insertInterval x acc) [] }

/-- Modelled from the spec: `getCheckpoint()` is the largest B such that
`[target.start, B]` is fully completed, or `target.start - 1` if nothing from
`target.start` is completed. On a canonical list this is the end of the first
interval when that interval covers `target.start`. -/
def ProgressTracker.getCheckpoint (t : ProgressTracker) : Int :=
  match t.completed with
  | [] => t.target.1 - 1
  | (a, b) :: _ => if a ≤ t.target.1 then b else t.target.1 - 1

/-- Modelled from the spec: `getRequired() = difference([target], completed)`. -/
def ProgressTracker.getRequired (t : ProgressTracker) : List (Int × Int) :=
  intervalDifference [t.target] t.completed

/-- The result record of `addCompletedInterval`. -/
structure AddCompletedResult where
  isUpdated : Bool
  prevCheckpoint : Int
  newCheckpoint : Int
deriving Repr, DecidableEq

/-- Modelled from the spec: `addCompletedInterval([a,b])` intersects with the
target, unions into completed, recomputes the checkpoint, and returns
`{isUpdated: newCheckpoint > prevCheckpoint, prevCheckpoint, newCheckpoint}`. -/
def ProgressTracker.addCompletedInterval (t : ProgressTracker) (iv : Int × Int) :
    ProgressTracker × AddCompletedResult :=
  let prevCheckpoint := t.getCheckpoint
  let completed' :=
    (clipToTarget t.target iv).foldl (fun acc x => insertInterval x acc)
      t.completed
  let t' : ProgressTracker := { t with completed := completed' }
  let newCheckpoint := t'.getCheckpoint
  (t', { isUpdated := decide (newCheckpoint > prevCheckpoint)
         prevCheckpoint
         newCheckpoint })

/-! ## Tasks and the work queue -/

/-- The data a block callback closure captures: the log interval it will
persist once the block body arrives (`{startBlock, endBlock, logs,
transactionHashes}`; the store handle is ambient). -/
abbrev BlockCallback := LogInterval

/-- `HistoricalSyncTask`, the queue's task variant. Source references
(`logFilter`, `factory`) are dropped; block ranges and callbacks are kept. -/
inductive HistoricalSyncTask where
  | logFilterT (fromBlock toBlock : Int)
  | factoryChildAddressT (fromBlock toBlock : Int)
  | factoryLogFilterT (fromBlock toBlock : Int)
  | blockT (blockNumber : Int) (callbacks : List BlockCallback)
deriving Repr, DecidableEq

/-- A queue entry: the task, the priority passed to `addTask`, and the
`retry` flag. The queue is kept in insertion order; the priority discipline
itself is out of scope of the claims. -/
structure QueuedTask where
  task : HistoricalSyncTask
  priority : Int
  retry : Bool
deriving Repr, DecidableEq

/-- The priority each enqueue site computes for a task:
`Number.MAX_SAFE_INTEGER - fromBlock`, respectively
`Number.MAX_SAFE_INTEGER - blockNumber` for block tasks. -/
def taskPriority : HistoricalSyncTask → Int
  | .logFilterT fromBlock _ => MAX_SAFE_INTEGER - fromBlock
  | .factoryChildAddressT fromBlock _ => MAX_SAFE_INTEGER - fromBlock
  | .factoryLogFilterT fromBlock _ => MAX_SAFE_INTEGER - fromBlock
  | .blockT blockNumber _ => MAX_SAFE_INTEGER - blockNumber

/-- The `onError` handler of `buildQueue`: every task kind is re-enqueued
unchanged with `retry: true` at `MAX_SAFE_INTEGER - fromBlock`
(`MAX_SAFE_INTEGER - blockNumber` for block tasks). -/
def onError (queue : List QueuedTask) (task : HistoricalSyncTask) :
    List QueuedTask :=
  match task with
  | .logFilterT fromBlock toBlock =>
      queue ++ [⟨.logFilterT fromBlock toBlock, MAX_SAFE_INTEGER - fromBlock, true⟩]
  | .factoryChildAddressT fromBlock toBlock =>
      queue ++ [⟨.factoryChildAddressT fromBlock toBlock, MAX_SAFE_INTEGER - fromBlock, true⟩]
  | .factoryLogFilterT fromBlock toBlock =>
      queue ++ [⟨.factoryLogFilterT fromBlock toBlock, MAX_SAFE_INTEGER - fromBlock, true⟩]
  | .blockT blockNumber callbacks =>
      queue ++ [⟨.blockT blockNumber callbacks, MAX_SAFE_INTEGER - blockNumber, true⟩]

/-! ## The block-task gate -/

/-- The mutable service state read and written by `enqueueBlockTasks`.
`blockCallbacks` is a JS record keyed by block number; numeric keys iterate in
ascending order, so it is kept as an association list with ascending distinct
keys. The block tracker is represented by its sorted pending list
(`addPendingBlocks` merges into it, spec §4.3). The enqueued-up-to checkpoint
is a JS number that the source sets to `Math.min()` results, hence `JsNum`. -/
structure GateState where
  logFilterCheckpoints : List Int
  factoryChildAddressCheckpoints : List Int
  factoryLogFilterCheckpoints : List Int
  blockCallbacks : List (Int × List BlockCallback)
  blockPending : List Int
  blockTasksEnqueuedCheckpoint : JsNum
  queue : List QueuedTask
deriving Repr, DecidableEq

/-- `this.blockCallbacks[blockNumber]` lookup. -/
def lookupCallbacks (blockNumber : Int)
    (cbs : List (Int × List BlockCallback)) : List BlockCallback :=
  match cbs.find? (fun p => p.1 = blockNumber) with
  | some p => p.2
  | none => []

/-- `delete this.blockCallbacks[blockNumber]`. -/
def eraseCallbacks (blockNumber : Int)
    (cbs : List (Int × List BlockCallback)) : List (Int × List BlockCallback) :=
  cbs.filter (fun p => p.1 ≠ blockNumber)

/-- The enqueue-and-delete loop of `enqueueBlockTasks`: for each new block,
enqueue one block task carrying that key's callback list at priority
`MAX_SAFE_INTEGER - blockNumber`, then delete the key. -/
def enqueueBlockLoop :
    List Int → List (Int × List BlockCallback) → List QueuedTask →
    List (Int × List BlockCallback) × List QueuedTask
  | [], cbs, q => (cbs, q)
  | blockNumber :: rest, cbs, q =>
      enqueueBlockLoop rest (eraseCallbacks blockNumber cbs)
        (q ++ [⟨.blockT blockNumber (lookupCallbacks blockNumber cbs),
                MAX_SAFE_INTEGER - blockNumber, false⟩])

/-- `enqueueBlockTasks()`: compute `T` as `Math.min` of every tracker
checkpoint across the three kinds; if `T` exceeds the enqueued-up-to
checkpoint, select the callback keys `≤ T`, register them as pending,
enqueue one block task per key, delete the keys, and advance the
enqueued-up-to checkpoint to `T`; otherwise do nothing. -/
def enqueueBlockTasks (s : GateState) : GateState :=
  let blockTasksCanBeEnqueuedTo := jsMinList
    (s.logFilterCheckpoints ++ s.factoryChildAddressCheckpoints ++
      s.factoryLogFilterCheckpoints)
  if jsLt s.blockTasksEnqueuedCheckpoint blockTasksCanBeEnqueuedTo then
    let newBlocks := (s.blockCallbacks.map Prod.fst).filter
      (fun blockNumber => jsLeFin blockNumber blockTasksCanBeEnqueuedTo)
    { s with
      blockCallbacks := (enqueueBlockLoop newBlocks s.blockCallbacks s.queue).1
      blockPending := newBlocks.foldl
        (fun acc n => List.orderedInsert (fun a b => a ≤ b) n acc)
        s.blockPending
      queue := (enqueueBlockLoop newBlocks s.blockCallbacks s.queue).2
      blockTasksEnqueuedCheckpoint := blockTasksCanBeEnqueuedTo }
  else s

/-! ## Worker bodies (post-I/O parts) -/

/-- `(this.blockCallbacks[endBlock] ||= []).push(cb)`, keeping the record's
ascending numeric-key iteration order. -/
def pushCallback (key : Int) (cb : BlockCallback) :
    List (Int × List BlockCallback) → List (Int × List BlockCallback)
  | [] => [(key, [cb])]
  | (k, l) :: rest =>
      if key < k then (key, [cb]) :: (k, l) :: rest
      else if key = k then (k, l ++ [cb]) :: rest
      else (k, l) :: pushCallback key cb rest

/-- Register one block callback per log interval, keyed by the interval's
`endBlock`; the callback captures the interval's data. -/
def registerBlockCallbacks (intervals : List LogInterval)
    (cbs : List (Int × List BlockCallback)) : List (Int × List BlockCallback) :=
  intervals.foldl (fun acc iv => pushCallback iv.endBlock iv acc) cbs

/-- The state a factory-child-address task reads and writes after its
`_eth_getLogs` fetch and `insertFactoryChildAddressLogs` persist returned. -/
structure FactoryWorkerResult where
  tracker : ProgressTracker
  blockCallbacks : List (Int × List BlockCallback)
  queue : List QueuedTask
deriving Repr, DecidableEq

/-- The tail of `factoryChildAddressTaskWorker` (everything after the log
fetch and the unconditional child-address-log persist): build log intervals,
register block callbacks, mark `[fromBlock, toBlock]` completed on the
factory-child-address tracker, and if the checkpoint advanced enqueue
factory-log-filter tasks covering `(prevCheckpoint, newCheckpoint]`, chunked
by `factory.maxBlockRange ?? network.defaultMaxBlockRange`. -/
def factoryChildAddressTaskWorker (maxBlockRange : Option Nat)
    (defaultMaxBlockRange : Nat) (fromBlock toBlock : Int)
    (logs : List RpcLog) (tracker : ProgressTracker)
    (blockCallbacks : List (Int × List BlockCallback))
    (queue : List QueuedTask) : FactoryWorkerResult :=
  let logIntervals := buildLogIntervals fromBlock toBlock logs
  let blockCallbacks' := registerBlockCallbacks logIntervals blockCallbacks
  let (tracker', r) := tracker.addCompletedInterval (fromBlock, toBlock)
  let queue' :=
    if r.isUpdated then
      let factoryLogFilterChunks :=
        getChunks (maxBlockRange.getD defaultMaxBlockRange)
          [(r.prevCheckpoint + 1, r.newCheckpoint)]
      queue ++ factoryLogFilterChunks.map
        (fun c => ⟨.factoryLogFilterT c.1 c.2, MAX_SAFE_INTEGER - c.1, false⟩)
    else queue
  ⟨tracker', blockCallbacks', queue'⟩

/-! ## Setup (factory branch) -/

/-- The factory branch of `setup()`, for a factory whose historical sync is
required, given the two completed-interval lists the store returned. Yields
the two trackers and the initial tasks enqueued for this factory, in order
(child-address chunks first, then the missing factory-log-filter chunks). -/
def setupFactorySource (startBlock endBlock : Int) (maxBlockRange : Option Nat)
    (defaultMaxBlockRange : Nat)
    (completedFactoryChildAddressIntervals : List (Int × Int))
    (completedFactoryLogFilterIntervals : List (Int × Int)) :
    ProgressTracker × ProgressTracker × List QueuedTask :=
  let factoryChildAddressProgressTracker :=
    ProgressTracker.new (startBlock, endBlock) completedFactoryChildAddressIntervals
  let requiredFactoryChildAddressIntervals :=
    factoryChildAddressProgressTracker.getRequired
  let factoryChildAddressTaskChunks :=
    getChunks (maxBlockRange.getD defaultMaxBlockRange)
      requiredFactoryChildAddressIntervals
  let queue1 := factoryChildAddressTaskChunks.map
    (fun c => (⟨.factoryChildAddressT c.1 c.2, MAX_SAFE_INTEGER - c.1, false⟩ : QueuedTask))
  let factoryLogFilterProgressTracker :=
    ProgressTracker.new (startBlock, endBlock) completedFactoryLogFilterIntervals
  let requiredFactoryLogFilterIntervals :=
    factoryLogFilterProgressTracker.getRequired
  let missingFactoryLogFilterIntervals := intervalDifference
    requiredFactoryLogFilterIntervals requiredFactoryChildAddressIntervals
  let missingFactoryLogFilterTaskChunks :=
    getChunks (maxBlockRange.getD defaultMaxBlockRange)
      missingFactoryLogFilterIntervals
  let queue2 := missingFactoryLogFilterTaskChunks.map
    (fun c => (⟨.factoryLogFilterT c.1 c.2, MAX_SAFE_INTEGER - c.1, false⟩ : QueuedTask))
  (factoryChildAddressProgressTracker, factoryLogFilterProgressTracker,
    queue1 ++ queue2)

/-! ## `start()` -/

/-- The externally visible actions `start()` performs, in order (log lines and
the status-update timer omitted). -/
inductive StartAction where
  | emitHistoricalCheckpoint (blockNumber blockTimestamp : Int)
  | emitSyncComplete
  | startQueue
deriving Repr, DecidableEq

/-- `Math.round(nowMs / 1000)` for a non-negative millisecond clock. -/
def jsRoundToSeconds (nowMs : Nat) : Int := ((nowMs + 500) / 1000 : Nat)

/-- `start()`: if the queue is empty, emit `historicalCheckpoint` at the
finalized block number with the current wall-clock seconds, then
`syncComplete`, and only then start the queue; otherwise just start the
queue. -/
def start (queueSize : Nat) (finalizedBlockNumber : Int) (nowMs : Nat) :
    List StartAction :=
  (if queueSize = 0 then
    [StartAction.emitHistoricalCheckpoint finalizedBlockNumber
      (jsRoundToSeconds nowMs),
     StartAction.emitSyncComplete]
  else []) ++ [StartAction.startQueue]

/-! ## JS string operations

`_eth_getLogs` classifies provider errors by their `details` string. The JS
string methods it uses are embedded on `List Char` with structural (fueled)
recursion so that concrete runs reduce in the kernel. -/

/-- One step of `String.prototype.split(sep)` for a non-empty separator, with
fuel (every step consumes at least one character, so `length + 1` fuel always
suffices). -/
def splitOnFuel (sep : List Char) :
    Nat → List Char → List Char → List (List Char)
  | 0, l, acc => [acc.reverse ++ l]
  | _ + 1, [], acc => [acc.reverse]
  | fuel + 1, c :: rest, acc =>
      if sep.isPrefixOf (c :: rest) then
        acc.reverse :: splitOnFuel sep fuel (List.drop (sep.length - 1) rest) []
      else splitOnFuel sep fuel rest (c :: acc)

/-- `s.split(sep)` for a non-empty separator. -/
def jsSplit (s sep : List Char) : List (List Char) :=
  splitOnFuel sep (s.length + 1) s []

/-- `s.startsWith(p)`. -/
def jsStartsWith (s p : List Char) : Bool := p.isPrefixOf s

/-- `s.includes(p)` for a non-empty pattern: `p` occurs in `s` exactly when
splitting on it yields more than one segment. -/
def jsIncludes (s p : List Char) : Bool := (jsSplit s p).length > 1

/-- `s.slice(0, -n)`: drop the last `n` characters. -/
def jsDropRight (n : Nat) (l : List Char) : List Char := l.take (l.length - n)

/-- Decimal-digit accumulation; `none` when a non-digit appears. -/
def digitsValAux : List Char → Nat → Option Nat
  | [], acc => some acc
  | c :: rest, acc =>
      if c.isDigit then digitsValAux rest (acc * 10 + (c.toNat - 48)) else none

/-- Hexadecimal-digit accumulation; `none` when a non-hex-digit appears. -/
def hexDigitsValAux : List Char → Nat → Option Nat
  | [], acc => some acc
  | c :: rest, acc =>
      if c.isDigit then hexDigitsValAux rest (acc * 16 + (c.toNat - 48))
      else if 'a' ≤ c ∧ c ≤ 'f' then
        hexDigitsValAux rest (acc * 16 + (c.toNat - 87))
      else if 'A' ≤ c ∧ c ≤ 'F' then
        hexDigitsValAux rest (acc * 16 + (c.toNat - 55))
      else none

/-- `Number(s)`, embedded for the inputs the classifier meets: surrounding
whitespace is trimmed, the empty string is `0`, a string of decimal digits or
a `0x`-prefixed string of hex digits is its value, and anything else is `NaN`
(`none`). Signs and fractions do not occur in provider hint strings and are
mapped to `none`. -/
def jsNumber (s : List Char) : Option Int :=
  let t := ((s.dropWhile Char.isWhitespace).reverse.dropWhile
    Char.isWhitespace).reverse
  match t with
  | [] => some 0
  | '0' :: 'x' :: rest =>
      if rest.isEmpty then none else (hexDigitsValAux rest 0).map Int.ofNat
  | _ => (digitsValAux t 0).map Int.ofNat

/-! ## `_eth_getLogs` -/

/-- The viem error classes `_eth_getLogs` distinguishes with `instanceof`,
carrying the `details` string it inspects. -/
inductive RpcError where
  | invalidParams (details : String)
  | limitExceeded (details : String)
  | httpRequest (details : String)
  | other
deriving Repr, DecidableEq

/-- How a `_eth_getLogs` call can fail. `parse` stands for the exception the
source raises while extracting a suggested range (a `TypeError` on
`undefined.split`/`undefined.slice`, or `toHex(NaN)` poisoning the retry
request); `fuel` is the recursion-depth bound of this embedding, never hit
on the runs the theorems evaluate. -/
inductive FetchError where
  | rpc (e : RpcError)
  | parse
  | fuel
deriving Repr, DecidableEq

/-- The Alchemy suggested-range extraction:
`safe = details.split("this block range should work: ")[1]`,
`safeStart = Number(safe.split(", ")[0].slice(1))`,
`safeEnd = Number(safe.split(", ")[1].slice(0, -1))`;
`none` when any step would throw or yield `NaN`. -/
def parseAlchemySuggestion (details : String) : Option (Int × Int) :=
  match (jsSplit details.data "this block range should work: ".data).get? 1 with
  | none => none
  | some safe =>
      let parts := jsSplit safe ", ".data
      match parts.get? 0, parts.get? 1 with
      | some s0, some s1 =>
          match jsNumber (s0.drop 1), jsNumber (jsDropRight 1 s1) with
          | some a, some b => some (a, b)
          | _, _ => none
      | _, _ => none

/-- The Infura suggested-range extraction:
`safe = details.split("Try with this block range ")[1]`,
`safeStart = Number(safe.split(", ")[0].slice(1))`,
`safeEnd = Number(safe.split(", ")[1].slice(0, -2))`. -/
def parseInfuraSuggestion (details : String) : Option (Int × Int) :=
  match (jsSplit details.data "Try with this block range ".data).get? 1 with
  | none => none
  | some safe =>
      let parts := jsSplit safe ", ".data
      match parts.get? 0, parts.get? 1 with
      | some s0, some s1 =>
          match jsNumber (s0.drop 1), jsNumber (jsDropRight 2 s1) with
          | some a, some b => some (a, b)
          | _, _ => none
      | _, _ => none

/-- `Math.floor((to - from) / 2 + from)`, the fallback split point. -/
def midpointOf (fromBlock toBlock : Int) : Int :=
  (toBlock - fromBlock) / 2 + fromBlock

/-- The error-classification chain of `_eth_getLogs`: produce the retry
sub-ranges for the four recognised provider errors, rethrow anything else. -/
def getRetryRanges (e : RpcError) (fromBlock toBlock : Int) :
    Except FetchError (List (Int × Int)) :=
  match e with
  | .invalidParams details =>
      if jsStartsWith details.data "Log response size exceeded.".data then
        match parseAlchemySuggestion details with
        | some s => .ok [(s.1, s.2), (s.2 + 1, toBlock)]
        | none => .error .parse
      else if jsIncludes details.data "block range less than 20000".data then
        .ok [(fromBlock, midpointOf fromBlock toBlock),
             (midpointOf fromBlock toBlock + 1, toBlock)]
      else .error (.rpc e)
  | .limitExceeded details =>
      if jsIncludes details.data "query returned more than 10000 results".data then
        match parseInfuraSuggestion details with
        | some s => .ok [(s.1, s.2), (s.2 + 1, toBlock)]
        | none => .error .parse
      else .error (.rpc e)
  | .httpRequest details =>
      if jsIncludes details.data
          "eth_getLogs and eth_newFilter are limited to a 10,000 blocks range".data then
        .ok [(fromBlock, midpointOf fromBlock toBlock),
             (midpointOf fromBlock toBlock + 1, toBlock)]
      else .error (.rpc e)
  | .other => .error (.rpc e)

/-- The sequential retry loop at the end of `_eth_getLogs`: run the sub-call
on each retry range in order, concatenating logs; a failing sub-call aborts
the loop and propagates. The second component is the request trace. -/
def runRetryRanges
    (call : Int → Int → Except FetchError (List RpcLog) × List (Int × Int)) :
    List (Int × Int) → Except FetchError (List RpcLog) × List (Int × Int)
  | [] => (.ok [], [])
  | r :: rest =>
      match call r.1 r.2 with
      | (.ok logs1, tr1) =>
          match runRetryRanges call rest with
          | (.ok logs2, tr2) => (.ok (logs1 ++ logs2), tr1 ++ tr2)
          | (.error e, tr2) => (.error e, tr1 ++ tr2)
      | (.error e, tr1) => (.error e, tr1)

/-- `_eth_getLogs` over an abstract RPC endpoint, instrumented with the list
of `eth_getLogs` requests it issues (block-range pairs, in order). Hex
encoding is dropped: `toHex`/`Number` round-trip on the block numbers. `fuel`
bounds the recursion depth of the embedding. -/
def ethGetLogs (rpc : Int → Int → Except RpcError (List RpcLog)) :
    Nat → Int → Int → Except FetchError (List RpcLog) × List (Int × Int)
  | 0 => fun fromBlock toBlock => (.error .fuel, [(fromBlock, toBlock)])
  | fuel + 1 => fun fromBlock toBlock =>
      match rpc fromBlock toBlock with
      | .ok logs => (.ok logs, [(fromBlock, toBlock)])
      | .error e =>
          match getRetryRanges e fromBlock toBlock with
          | .error fe => (.error fe, [(fromBlock, toBlock)])
          | .ok ranges =>
              let r := runRetryRanges (ethGetLogs rpc fuel) ranges
              (r.1, (fromBlock, toBlock) :: r.2)

/-! ## SyncGateway (`sync-gateway/service.ts`) -/

/-- One network's entry in `networkCheckpoints`. -/
structure NetworkCheckpoints where
  isHistoricalSyncComplete : Bool
  historicalCheckpoint : Int
  realtimeCheckpoint : Int
  finalityCheckpoint : Int
deriving Repr, DecidableEq

/-- The gateway's mutable state. The composite `checkpoint` is assigned
`Math.min(...)` results and is therefore a `JsNum`; it starts at `fin 0`.
`networkCheckpoints` is a record keyed by chain id. -/
structure SyncGatewayState where
  checkpoint : JsNum
  finalityCheckpoint : JsNum
  historicalSyncCompletedAt : Option Int
  networkCheckpoints : List (Nat × NetworkCheckpoints)
deriving Repr, DecidableEq

/-- The gateway state after construction over the given chain ids. -/
def initialGatewayState (chainIds : List Nat) : SyncGatewayState :=
  { checkpoint := JsNum.fin 0
    finalityCheckpoint := JsNum.fin 0
    historicalSyncCompletedAt := none
    networkCheckpoints := chainIds.map (fun c => (c, ⟨false, 0, 0, 0⟩)) }

/-- The events the gateway emits (those the embedded handlers can produce). -/
inductive GatewayEvent where
  | newCheckpoint (timestamp : JsNum)
  | newFinalityCheckpoint (timestamp : JsNum)
  | reorg (commonAncestorTimestamp : Int)
deriving Repr, DecidableEq

/-- Update the entry at `chainId`, leaving the record unchanged if the key is
absent (the source would throw a `TypeError` before mutating anything). -/
def updateNetwork (chainId : Nat) (f : NetworkCheckpoints → NetworkCheckpoints) :
    List (Nat × NetworkCheckpoints) → List (Nat × NetworkCheckpoints)
  | [] => []
  | (c, n) :: rest =>
      if c = chainId then (c, f n) :: rest
      else (c, n) :: updateNetwork chainId f rest

/-- A network's contribution to `recalculateCheckpoint`: the historical
checkpoint until its historical sync completes, then the max of historical
and realtime. -/
def networkEffectiveCheckpoint (n : NetworkCheckpoints) : Int :=
  if n.isHistoricalSyncComplete then
    max n.historicalCheckpoint n.realtimeCheckpoint
  else n.historicalCheckpoint

/-- `recalculateCheckpoint()`: take the min of the per-network effective
checkpoints; when it strictly exceeds the stored checkpoint, store it and
emit `newCheckpoint`, otherwise do nothing. -/
def recalculateCheckpoint (s : SyncGatewayState) :
    SyncGatewayState × List GatewayEvent :=
  if jsLt s.checkpoint (jsMinList
      (s.networkCheckpoints.map (fun p => networkEffectiveCheckpoint p.2))) then
    ({ s with checkpoint := (jsMinList
        (s.networkCheckpoints.map (fun p => networkEffectiveCheckpoint p.2))) },
     [.newCheckpoint (jsMinList
        (s.networkCheckpoints.map (fun p => networkEffectiveCheckpoint p.2)))])
  else (s, [])

/-- `recalculateFinalityCheckpoint()`. -/
def recalculateFinalityCheckpoint (s : SyncGatewayState) :
    SyncGatewayState × List GatewayEvent :=
  if jsLt s.finalityCheckpoint (jsMinList
      (s.networkCheckpoints.map (fun p => p.2.finalityCheckpoint))) then
    ({ s with finalityCheckpoint := (jsMinList
        (s.networkCheckpoints.map (fun p => p.2.finalityCheckpoint))) },
     [.newFinalityCheckpoint (jsMinList
        (s.networkCheckpoints.map (fun p => p.2.finalityCheckpoint)))])
  else (s, [])

/-- `Math.max` over a list that is non-empty at every reachable call site. -/
def maxListD : List Int → Int
  | [] => 0
  | x :: xs => xs.foldl max x

/-- `handleNewHistoricalCheckpoint({chainId, timestamp})`. For an
unregistered chain id the source throws before mutating; the embedding
returns the state unchanged with no events. -/
def handleNewHistoricalCheckpoint (s : SyncGatewayState) (chainId : Nat)
    (timestamp : Int) : SyncGatewayState × List GatewayEvent :=
  if (s.networkCheckpoints.map Prod.fst).contains chainId then
    recalculateCheckpoint
      { s with
        networkCheckpoints := updateNetwork chainId
          (fun n => { n with historicalCheckpoint := timestamp })
          s.networkCheckpoints }
  else (s, [])

/-- `handleNewRealtimeCheckpoint({chainId, timestamp})`. -/
def handleNewRealtimeCheckpoint (s : SyncGatewayState) (chainId : Nat)
    (timestamp : Int) : SyncGatewayState × List GatewayEvent :=
  if (s.networkCheckpoints.map Prod.fst).contains chainId then
    recalculateCheckpoint
      { s with
        networkCheckpoints := updateNetwork chainId
          (fun n => { n with realtimeCheckpoint := timestamp })
          s.networkCheckpoints }
  else (s, [])

/-- `handleHistoricalSyncComplete({chainId})`: mark the network complete,
recalculate the composite checkpoint, and if every registered network is now
complete set `historicalSyncCompletedAt` to the max historical checkpoint. -/
def handleHistoricalSyncComplete (s : SyncGatewayState) (chainId : Nat) :
    SyncGatewayState × List GatewayEvent :=
  if (s.networkCheckpoints.map Prod.fst).contains chainId then
    let s1 :=
      { s with
        networkCheckpoints := updateNetwork chainId
          (fun n => { n with isHistoricalSyncComplete := true })
          s.networkCheckpoints }
    let r := recalculateCheckpoint s1
    let s2 := r.1
    if s2.networkCheckpoints.all (fun p => p.2.isHistoricalSyncComplete) then
      ({ s2 with
          historicalSyncCompletedAt := some (maxListD
            (s2.networkCheckpoints.map (fun p => p.2.historicalCheckpoint))) },
        r.2)
    else (s2, r.2)
  else (s, [])

/-- `handleNewFinalityCheckpoint({chainId, timestamp})`. -/
def handleNewFinalityCheckpoint (s : SyncGatewayState) (chainId : Nat)
    (timestamp : Int) : SyncGatewayState × List GatewayEvent :=
  if (s.networkCheckpoints.map Prod.fst).contains chainId then
    recalculateFinalityCheckpoint
      { s with
        networkCheckpoints := updateNetwork chainId
          (fun n => { n with finalityCheckpoint := timestamp })
          s.networkCheckpoints }
  else (s, [])

/-- `handleReorg({commonAncestorTimestamp})`: re-emit only. -/
def handleReorg (s : SyncGatewayState) (commonAncestorTimestamp : Int) :
    SyncGatewayState × List GatewayEvent :=
  (s, [.reorg commonAncestorTimestamp])

/-- The gateway's mutating entry points, as a single operation type. -/
inductive GatewayOp where
  | newHistoricalCheckpoint (chainId : Nat) (timestamp : Int)
  | historicalSyncComplete (chainId : Nat)
  | newRealtimeCheckpoint (chainId : Nat) (timestamp : Int)
  | newFinalityCheckpoint (chainId : Nat) (timestamp : Int)
  | reorg (commonAncestorTimestamp : Int)
deriving Repr, DecidableEq

/-- Dispatch one gateway operation. -/
def applyGatewayOp (s : SyncGatewayState) :
    GatewayOp → SyncGatewayState × List GatewayEvent
  | .newHistoricalCheckpoint chainId timestamp =>
      handleNewHistoricalCheckpoint s chainId timestamp
  | .historicalSyncComplete chainId => handleHistoricalSyncComplete s chainId
  | .newRealtimeCheckpoint chainId timestamp =>
      handleNewRealtimeCheckpoint s chainId timestamp
  | .newFinalityCheckpoint chainId timestamp =>
      handleNewFinalityCheckpoint s chainId timestamp
  | .reorg t => handleReorg s t

/-- Run a sequence of gateway operations, discarding events. -/
def applyGatewayOps (s : SyncGatewayState) (ops : List GatewayOp) :
    SyncGatewayState :=
  ops.foldl (fun st op => (applyGatewayOp st op).1) s

/-- The `isHistoricalSyncComplete` flag recorded at `chainId` in a network
record (`false` when unregistered). -/
def flagIn (l : List (Nat × NetworkCheckpoints)) (chainId : Nat) : Bool :=
  match l.find? (fun p => p.1 = chainId) with
  | some p => p.2.isHistoricalSyncComplete
  | none => false

/-- The `isHistoricalSyncComplete` flag of the network registered at
`chainId` (`false` when unregistered). -/
def flagOf (s : SyncGatewayState) (chainId : Nat) : Bool :=
  flagIn s.networkCheckpoints chainId

/-- Whether every registered network has completed its historical sync. -/
def allHistoricalSyncComplete (s : SyncGatewayState) : Bool :=
  s.networkCheckpoints.all (fun p => p.2.isHistoricalSyncComplete)

/-- Recognise factory-log-filter queue entries. -/
def isFactoryLogFilterTask (qt : QueuedTask) : Bool :=
  match qt.task with
  | .factoryLogFilterT _ _ => true
  | _ => false

/-- The scenario-S4 mock endpoint: the call over `[0, 1000]` fails with the
Alchemy response-size error suggesting `[0, 400]`; the calls over `[0, 400]`
and `[401, 1000]` succeed. -/
def mockRpc : Int → Int → Except RpcError (List RpcLog) := fun f t =>
  if f = 0 ∧ t = 1000 then
    .error (.invalidParams
      "Log response size exceeded. this block range should work: [0, 400]")
  else if f = 0 ∧ t = 400 then .ok [⟨110, "0xa"⟩]
  else if f = 401 ∧ t = 1000 then .ok [⟨500, "0xb"⟩]
  else .error .other

/-- A mock endpoint whose only failure is an Alchemy-class response-size
error carrying no parsable suggested range. -/
def badRpc : Int → Int → Except RpcError (List RpcLog) := fun f t =>
  if f = 0 ∧ t = 1000 then
    .error (.invalidParams "Log response size exceeded.")
  else .ok []

/-- A small concrete gate state: one log-filter tracker checkpoint at 7, one
factory-child-address checkpoint at 9, callbacks registered at blocks 5 and
8, nothing enqueued yet. -/
def gateExample : GateState :=
  { logFilterCheckpoints := [7]
    factoryChildAddressCheckpoints := [9]
    factoryLogFilterCheckpoints := []
    blockCallbacks := [(5, []), (8, [])]
    blockPending := []
    blockTasksEnqueuedCheckpoint := JsNum.fin 0
    queue := [] }

/-! ## Properties of `buildLogIntervals` (C1) -/

theorem mem_logBlockNumbers {x : Int} {logs : List RpcLog} :
    x ∈ logBlockNumbers logs ↔ x ∈ logs.map (·.blockNumber) := by
  unfold logBlockNumbers sortAsc
  rw [(List.perm_insertionSort _ _).mem_iff, List.mem_dedup]

theorem logBlockNumbers_sorted (logs : List RpcLog) :
    (logBlockNumbers logs).Sorted (· ≤ ·) :=
  List.sorted_insertionSort _ _

theorem logBlockNumbers_nodup (logs : List RpcLog) :
    (logBlockNumbers logs).Nodup :=
  ((List.perm_insertionSort _ _).nodup_iff).mpr (List.nodup_dedup _)

theorem logBlockNumbers_sorted_lt (logs : List RpcLog) :
    (logBlockNumbers logs).Sorted (· < ·) :=
  (logBlockNumbers_sorted logs).lt_of_le (logBlockNumbers_nodup logs)

theorem requiredBlocksOf_ne_nil (toBlock : Int) (logs : List RpcLog) :
    requiredBlocksOf toBlock logs ≠ [] := by
  unfold requiredBlocksOf
  split
  next hmem =>
    intro heq
    rw [heq] at hmem
    exact absurd hmem (List.not_mem_nil _)
  · simp

theorem requiredBlocksOf_sorted_lt {toBlock : Int} {logs : List RpcLog}
    (hhi : ∀ l ∈ logs, l.blockNumber ≤ toBlock) :
    (requiredBlocksOf toBlock logs).Sorted (· < ·) := by
  unfold requiredBlocksOf
  split
  · exact logBlockNumbers_sorted_lt logs
  next hnot =>
    rw [List.Sorted, List.pairwise_append]
    refine ⟨logBlockNumbers_sorted_lt logs, List.pairwise_singleton _ _, ?_⟩
    intro a ha b hb
    rw [List.mem_singleton] at hb
    subst hb
    rcases List.mem_map.mp (mem_logBlockNumbers.mp ha) with ⟨l, hl, rfl⟩
    exact lt_of_le_of_ne (hhi l hl) (fun h => hnot (h ▸ ha))

/-- In a `≤`-sorted list, a member that bounds every element is the last
element. -/
theorem getLast?_sorted_max :
    ∀ {l : List Int}, l.Sorted (· ≤ ·) → ∀ {t : Int}, t ∈ l →
      (∀ x ∈ l, x ≤ t) → l.getLast? = some t := by
  intro l
  induction l with
  | nil => intro _ t ht _; cases ht
  | cons a l ih =>
    intro hs t ht hb
    cases l with
    | nil =>
      rw [List.mem_singleton] at ht
      rw [ht]
      rfl
    | cons b m =>
      rw [List.getLast?_cons_cons]
      have hs' := (List.sorted_cons.mp hs).2
      have hab := (List.sorted_cons.mp hs).1
      have ht' : t ∈ b :: m := by
        rcases List.mem_cons.mp ht with rfl | h
        · have h1 : t ≤ b := hab b (List.mem_cons_self _ _)
          have h2 : b ≤ t := hb b (List.mem_cons.mpr (Or.inr (List.mem_cons_self _ _)))
          have : b = t := le_antisymm h2 h1
          exact this ▸ List.mem_cons_self _ _
        · exact h
      exact ih hs' ht' (fun x hx => hb x (List.mem_cons.mpr (Or.inr hx)))

theorem requiredBlocksOf_getLast? {toBlock : Int} {logs : List RpcLog}
    (hhi : ∀ l ∈ logs, l.blockNumber ≤ toBlock) :
    (requiredBlocksOf toBlock logs).getLast? = some toBlock := by
  unfold requiredBlocksOf
  split
  next hmem =>
    refine getLast?_sorted_max (logBlockNumbers_sorted logs) hmem ?_
    intro x hx
    rcases List.mem_map.mp (mem_logBlockNumbers.mp hx) with ⟨l, hl, rfl⟩
    exact hhi l hl
  · exact List.getLast?_concat _

theorem requiredBlocksOf_mem_ge {fromBlock toBlock : Int} {logs : List RpcLog}
    (hft : fromBlock ≤ toBlock)
    (hlo : ∀ l ∈ logs, fromBlock ≤ l.blockNumber) :
    ∀ x ∈ requiredBlocksOf toBlock logs, fromBlock ≤ x := by
  intro x hx
  unfold requiredBlocksOf at hx
  split at hx
  · rcases List.mem_map.mp (mem_logBlockNumbers.mp hx) with ⟨l, hl, rfl⟩
    exact hlo l hl
  · rcases List.mem_append.mp hx with h | h
    · rcases List.mem_map.mp (mem_logBlockNumbers.mp h) with ⟨l, hl, rfl⟩
      exact hlo l hl
    · rw [List.mem_singleton] at h
      exact h ▸ hft

theorem buildLogIntervalsLoop_ne_nil (logs : List RpcLog) (prev : Int)
    {l : List Int} (h : l ≠ []) : buildLogIntervalsLoop logs prev l ≠ [] := by
  cases l with
  | nil => exact absurd rfl h
  | cons b rest => simp [buildLogIntervalsLoop]

theorem buildLogIntervalsLoop_head?_start (logs : List RpcLog) (prev : Int)
    {l : List Int} (h : l ≠ []) :
    (buildLogIntervalsLoop logs prev l).head?.map LogInterval.startBlock =
      some prev := by
  cases l with
  | nil => exact absurd rfl h
  | cons b rest => simp [buildLogIntervalsLoop]

/-- Dropping the head of a list with a non-empty tail keeps the last
element. -/
theorem getLast?_cons_of_ne_nil {α : Type} (a : α) {l : List α} (h : l ≠ []) :
    (a :: l).getLast? = l.getLast? := by
  cases l with
  | nil => exact absurd rfl h
  | cons b m => exact List.getLast?_cons_cons

theorem buildLogIntervalsLoop_getLast?_end (logs : List RpcLog) :
    ∀ (l : List Int) (prev : Int), l ≠ [] →
      (buildLogIntervalsLoop logs prev l).getLast?.map LogInterval.endBlock =
        l.getLast? := by
  intro l
  induction l with
  | nil => intro prev h; exact absurd rfl h
  | cons b rest ih =>
    intro prev _
    cases rest with
    | nil => simp [buildLogIntervalsLoop]
    | cons c m =>
      rw [buildLogIntervalsLoop]
      rw [getLast?_cons_of_ne_nil _ (buildLogIntervalsLoop_ne_nil logs (b + 1)
        (List.cons_ne_nil c m))]
      rw [ih (b + 1) (List.cons_ne_nil c m)]
      rw [getLast?_cons_of_ne_nil _ (List.cons_ne_nil c m)]

theorem buildLogIntervalsLoop_chain (logs : List RpcLog) :
    ∀ (l : List Int) (prev : Int),
      List.Chain' (fun a b => b.startBlock = a.endBlock + 1)
        (buildLogIntervalsLoop logs prev l) := by
  intro l
  induction l with
  | nil => intro prev; simp [buildLogIntervalsLoop]
  | cons b rest ih =>
    intro prev
    rw [buildLogIntervalsLoop, List.chain'_cons']
    refine ⟨?_, ih (b + 1)⟩
    intro y hy
    cases rest with
    | nil => simp [buildLogIntervalsLoop] at hy
    | cons c m =>
      simp only [buildLogIntervalsLoop, List.head?_cons, Option.mem_def,
        Option.some.injEq] at hy
      rw [← hy]

theorem buildLogIntervalsLoop_start_le_end (logs : List RpcLog) :
    ∀ (l : List Int) (prev : Int), (∀ x ∈ l, prev ≤ x) → l.Sorted (· < ·) →
      ∀ iv ∈ buildLogIntervalsLoop logs prev l,
        iv.startBlock ≤ iv.endBlock := by
  intro l
  induction l with
  | nil => intro prev _ _ iv hiv; simp [buildLogIntervalsLoop] at hiv
  | cons b rest ih =>
    intro prev hge hs iv hiv
    rw [buildLogIntervalsLoop] at hiv
    rcases List.mem_cons.mp hiv with rfl | hiv
    · exact hge b (List.mem_cons_self _ _)
    · refine ih (b + 1) ?_ (List.sorted_cons.mp hs).2 iv hiv
      intro x hx
      have := (List.sorted_cons.mp hs).1 x hx
      omega

/-- C1: for `fromBlock ≤ toBlock` and logs whose block numbers lie in
`[fromBlock, toBlock]`, `buildLogIntervals` returns a non-empty list of
intervals partitioning `[fromBlock, toBlock]`: the first starts at
`fromBlock`, each subsequent interval starts right after the previous one
ends, the last ends at `toBlock`, and every interval is well-formed; for an
empty log list the result is the single interval `[fromBlock, toBlock]` with
no logs and no transaction hashes. -/
theorem buildLogIntervals_partition (fromBlock toBlock : Int)
    (logs : List RpcLog) (hft : fromBlock ≤ toBlock)
    (hlo : ∀ l ∈ logs, fromBlock ≤ l.blockNumber)
    (hhi : ∀ l ∈ logs, l.blockNumber ≤ toBlock) :
    buildLogIntervals fromBlock toBlock logs ≠ [] ∧
    (buildLogIntervals fromBlock toBlock logs).head?.map
      LogInterval.startBlock = some fromBlock ∧
    List.Chain' (fun a b => b.startBlock = a.endBlock + 1)
      (buildLogIntervals fromBlock toBlock logs) ∧
    (buildLogIntervals fromBlock toBlock logs).getLast?.map
      LogInterval.endBlock = some toBlock ∧
    (∀ iv ∈ buildLogIntervals fromBlock toBlock logs,
      iv.startBlock ≤ iv.endBlock) ∧
    buildLogIntervals fromBlock toBlock [] =
      [{ startBlock := fromBlock, endBlock := toBlock, logs := [],
         transactionHashes := [] }] := by
  have hne := requiredBlocksOf_ne_nil toBlock logs
  unfold buildLogIntervals
  refine ⟨buildLogIntervalsLoop_ne_nil _ _ hne,
          buildLogIntervalsLoop_head?_start _ _ hne,
          buildLogIntervalsLoop_chain _ _ _, ?_, ?_, ?_⟩
  · rw [buildLogIntervalsLoop_getLast?_end _ _ _ hne]
    exact requiredBlocksOf_getLast? hhi
  · exact buildLogIntervalsLoop_start_le_end _ _ _
      (requiredBlocksOf_mem_ge hft hlo) (requiredBlocksOf_sorted_lt hhi)
  · rfl

/-- Witness for C1 at the scenario-S1 inputs: range `[100, 199]` with logs at
blocks 110 and 160. -/
theorem buildLogIntervals_partition_witness :
    buildLogIntervals 100 199 [⟨110, "0xa"⟩, ⟨160, "0xb"⟩] ≠ [] ∧
    (buildLogIntervals 100 199 [⟨110, "0xa"⟩, ⟨160, "0xb"⟩]).head?.map
      LogInterval.startBlock = some 100 ∧
    List.Chain' (fun a b => b.startBlock = a.endBlock + 1)
      (buildLogIntervals 100 199 [⟨110, "0xa"⟩, ⟨160, "0xb"⟩]) ∧
    (buildLogIntervals 100 199 [⟨110, "0xa"⟩, ⟨160, "0xb"⟩]).getLast?.map
      LogInterval.endBlock = some 199 ∧
    (∀ iv ∈ buildLogIntervals 100 199 [⟨110, "0xa"⟩, ⟨160, "0xb"⟩],
      iv.startBlock ≤ iv.endBlock) ∧
    buildLogIntervals 100 199 [] =
      [{ startBlock := 100, endBlock := 199, logs := [],
         transactionHashes := [] }] :=
  buildLogIntervals_partition 100 199 [⟨110, "0xa"⟩, ⟨160, "0xb"⟩]
    (by decide) (by decide) (by decide)

/-! ## The retry handler (C7) -/

theorem setupFactorySource_priorities (s e : Int) (m : Option Nat) (d : Nat)
    (c1 c2 : List (Int × Int)) :
    ∀ qt ∈ (setupFactorySource s e m d c1 c2).2.2,
      qt.priority = taskPriority qt.task := by
  intro qt hqt
  simp only [setupFactorySource] at hqt
  rcases List.mem_append.mp hqt with h | h <;>
    · rcases List.mem_map.mp h with ⟨c, _, rfl⟩
      rfl

theorem factoryChildAddressTaskWorker_priorities (m : Option Nat) (d : Nat)
    (f t : Int) (logs : List RpcLog) (tr : ProgressTracker)
    (cbs : List (Int × List BlockCallback)) (q : List QueuedTask)
    (hq : ∀ qt ∈ q, qt.priority = taskPriority qt.task) :
    ∀ qt ∈ (factoryChildAddressTaskWorker m d f t logs tr cbs q).queue,
      qt.priority = taskPriority qt.task := by
  intro qt hqt
  simp only [factoryChildAddressTaskWorker] at hqt
  split at hqt
  · rcases List.mem_append.mp hqt with h | h
    · exact hq qt h
    · rcases List.mem_map.mp h with ⟨c, _, rfl⟩
      rfl
  · exact hq qt hqt

theorem enqueueBlockLoop_mem (blocks : List Int) :
    ∀ (cbs : List (Int × List BlockCallback)) (q : List QueuedTask)
      (qt : QueuedTask), qt ∈ (enqueueBlockLoop blocks cbs q).2 →
      qt ∈ q ∨ ∃ bn cbsl,
        qt = ⟨.blockT bn cbsl, MAX_SAFE_INTEGER - bn, false⟩ := by
  induction blocks with
  | nil =>
    intro cbs q qt hqt
    exact Or.inl hqt
  | cons b rest ih =>
    intro cbs q qt hqt
    rw [enqueueBlockLoop] at hqt
    rcases ih _ _ _ hqt with h | h
    · rcases List.mem_append.mp h with h2 | h2
      · exact Or.inl h2
      · rw [List.mem_singleton] at h2
        exact Or.inr ⟨b, lookupCallbacks b cbs, h2⟩
    · exact Or.inr h

theorem enqueueBlockTasks_priorities (s : GateState)
    (hq : ∀ qt ∈ s.queue, qt.priority = taskPriority qt.task) :
    ∀ qt ∈ (enqueueBlockTasks s).queue,
      qt.priority = taskPriority qt.task := by
  intro qt hqt
  simp only [enqueueBlockTasks] at hqt
  split at hqt
  · rcases enqueueBlockLoop_mem _ _ _ _ hqt with h | ⟨bn, cbsl, rfl⟩
    · exact hq qt h
    · rfl
  · exact hq qt hqt

/-- C7: on worker failure the queue's on-error handler re-enqueues the
identical task with `retry: true` at `MAX_SAFE_INTEGER - fromBlock`
(`MAX_SAFE_INTEGER - blockNumber` for block tasks) — the same priority every
original enqueue site (setup, the factory-child-address worker, the
block-task gate) uses — never dropping a failed task and imposing no retry
limit. -/
theorem onError_requeues_same_task (queue : List QueuedTask)
    (task : HistoricalSyncTask) :
    onError queue task = queue ++ [⟨task, taskPriority task, true⟩] ∧
    (⟨task, taskPriority task, true⟩ : QueuedTask) ∈ onError queue task ∧
    (∀ qt ∈ queue, qt ∈ onError queue task) ∧
    (∀ (s e : Int) (m : Option Nat) (d : Nat) (c1 c2 : List (Int × Int)),
      ∀ qt ∈ (setupFactorySource s e m d c1 c2).2.2,
        qt.priority = taskPriority qt.task) ∧
    (∀ (m : Option Nat) (d : Nat) (f t : Int) (logs : List RpcLog)
      (tr : ProgressTracker) (cbs : List (Int × List BlockCallback))
      (q : List QueuedTask),
      (∀ qt ∈ q, qt.priority = taskPriority qt.task) →
      ∀ qt ∈ (factoryChildAddressTaskWorker m d f t logs tr cbs q).queue,
        qt.priority = taskPriority qt.task) ∧
    (∀ s : GateState, (∀ qt ∈ s.queue, qt.priority = taskPriority qt.task) →
      ∀ qt ∈ (enqueueBlockTasks s).queue,
        qt.priority = taskPriority qt.task) := by
  have h : onError queue task = queue ++ [⟨task, taskPriority task, true⟩] := by
    cases task <;> rfl
  refine ⟨h, ?_, ?_, setupFactorySource_priorities,
    factoryChildAddressTaskWorker_priorities, enqueueBlockTasks_priorities⟩
  · rw [h]
    exact List.mem_append.mpr (Or.inr (List.mem_singleton.mpr rfl))
  · intro qt hqt
    rw [h]
    exact List.mem_append.mpr (Or.inl hqt)

/-- Witness for C7 at a concrete block task. -/
theorem onError_requeues_same_task_witness :
    onError [] (HistoricalSyncTask.blockT 7 []) =
      [] ++ [⟨.blockT 7 [], taskPriority (.blockT 7 []), true⟩] ∧
    (⟨.blockT 7 [], taskPriority (.blockT 7 []), true⟩ : QueuedTask) ∈
      onError [] (HistoricalSyncTask.blockT 7 []) ∧
    (∀ qt ∈ (setupFactorySource 0 99 none 50 [] []).2.2,
      qt.priority = taskPriority qt.task) :=
  ⟨(onError_requeues_same_task [] (.blockT 7 [])).1,
   (onError_requeues_same_task [] (.blockT 7 [])).2.1,
   (onError_requeues_same_task [] (.blockT 7 [])).2.2.2.1 0 99 none 50 [] []⟩

/-! ## `start()` (C8) -/

/-- C8: if the queue is empty when `start()` runs, the service emits
`historicalCheckpoint` at the finalized block number with the current
wall-clock seconds and then `syncComplete`, before starting the queue; with a
non-empty queue `start()` emits neither and only starts the queue. -/
theorem start_emits_on_empty_queue (queueSize : Nat)
    (finalizedBlockNumber : Int) (nowMs : Nat) :
    (queueSize = 0 → start queueSize finalizedBlockNumber nowMs =
      [.emitHistoricalCheckpoint finalizedBlockNumber (jsRoundToSeconds nowMs),
       .emitSyncComplete, .startQueue]) ∧
    (queueSize ≠ 0 →
      start queueSize finalizedBlockNumber nowMs = [.startQueue]) := by
  constructor
  · intro h
    simp [start, h]
  · intro h
    simp [start, h]

/-- Witness for C8 on both branches. -/
theorem start_emits_on_empty_queue_witness :
    start 0 500 12345678 =
      [.emitHistoricalCheckpoint 500 12346, .emitSyncComplete, .startQueue] ∧
    start 3 500 12345678 = [.startQueue] :=
  ⟨(start_emits_on_empty_queue 0 500 12345678).1 rfl,
   (start_emits_on_empty_queue 3 500 12345678).2 (by decide)⟩

/-! ## `_eth_getLogs` splitting (C3, C4) -/

/-- C3: when the request over `[fromBlock, toBlock]` fails with the
response-size error whose details carry a parsable suggested range `[a, b]`,
`_eth_getLogs` issues exactly the two recursive sub-requests over `[a, b]`
and `[b + 1, toBlock]` and returns the concatenation of their results (a
failing sub-request propagates, the first one short-circuiting the second). -/
theorem ethGetLogs_suggested_split
    (rpc : Int → Int → Except RpcError (List RpcLog)) (fuel : Nat)
    (fromBlock toBlock a b : Int) (details : String)
    (hrpc : rpc fromBlock toBlock = .error (.invalidParams details))
    (hsw : jsStartsWith details.data "Log response size exceeded.".data = true)
    (hparse : parseAlchemySuggestion details = some (a, b)) :
    ethGetLogs rpc (fuel + 1) fromBlock toBlock =
      (match ethGetLogs rpc fuel a b, ethGetLogs rpc fuel (b + 1) toBlock with
       | (.ok logs1, tr1), (.ok logs2, tr2) =>
           (.ok (logs1 ++ logs2), (fromBlock, toBlock) :: (tr1 ++ tr2))
       | (.ok _, tr1), (.error e, tr2) =>
           (.error e, (fromBlock, toBlock) :: (tr1 ++ tr2))
       | (.error e, tr1), _ => (.error e, (fromBlock, toBlock) :: tr1)) := by
  have hranges : getRetryRanges (.invalidParams details) fromBlock toBlock =
      .ok [(a, b), (b + 1, toBlock)] := by
    simp [getRetryRanges, hsw, hparse]
  simp only [ethGetLogs, hrpc, hranges, runRetryRanges]
  rcases h1 : ethGetLogs rpc fuel a b with ⟨r1, tr1⟩
  rcases h2 : ethGetLogs rpc fuel (b + 1) toBlock with ⟨r2, tr2⟩
  cases r1 with
  | error e => simp
  | ok logs1 =>
    cases r2 with
    | error e => simp
    | ok logs2 => simp

/-- Witness for C3 at the scenario-S4 inputs: the mock fails `[0, 1000]`
suggesting `[0, 400]`, and the two downstream sub-calls are `[0, 400]` and
`[401, 1000]`, whose logs are concatenated. -/
theorem ethGetLogs_suggested_split_witness :
    ethGetLogs mockRpc 10 0 1000 =
      (Except.ok [⟨110, "0xa"⟩, ⟨500, "0xb"⟩],
        [(0, 1000), (0, 400), (401, 1000)]) :=
  (ethGetLogs_suggested_split mockRpc 9 0 1000 0 400
      "Log response size exceeded. this block range should work: [0, 400]"
      rfl (by decide) (by decide)).trans rfl

/-- C4 counterexample: the Alchemy-class response-size error whose details
carry no parsable suggested range makes the call fail outright — no midpoint
(or any other) sub-request is issued, contradicting the claimed fallback. -/
theorem ethGetLogs_no_midpoint_fallback :
    badRpc 0 1000 =
      .error (.invalidParams "Log response size exceeded.") ∧
    jsStartsWith "Log response size exceeded.".data
      "Log response size exceeded.".data = true ∧
    parseAlchemySuggestion "Log response size exceeded." = none ∧
    (ethGetLogs badRpc 10 0 1000).1 = .error .parse ∧
    (ethGetLogs badRpc 10 0 1000).2 = [(0, 1000)] :=
  ⟨rfl, by decide, by decide, rfl, by decide⟩

/-- C4 amended: for the two suggestion-carrying error classes (Alchemy
response-size, Infura 10000-results), an unparsable suggested range makes
`_eth_getLogs` fail the call (the extraction error propagates) with no
sub-request issued; there is no midpoint fallback for these classes. -/
theorem ethGetLogs_unparsable_suggestion_fails
    (rpc : Int → Int → Except RpcError (List RpcLog)) (fuel : Nat)
    (fromBlock toBlock : Int) (details : String) :
    (rpc fromBlock toBlock = .error (.invalidParams details) →
      jsStartsWith details.data "Log response size exceeded.".data = true →
      parseAlchemySuggestion details = none →
      ethGetLogs rpc (fuel + 1) fromBlock toBlock =
        (.error .parse, [(fromBlock, toBlock)])) ∧
    (rpc fromBlock toBlock = .error (.limitExceeded details) →
      jsIncludes details.data
        "query returned more than 10000 results".data = true →
      parseInfuraSuggestion details = none →
      ethGetLogs rpc (fuel + 1) fromBlock toBlock =
        (.error .parse, [(fromBlock, toBlock)])) := by
  constructor
  · intro hrpc hsw hparse
    have hranges : getRetryRanges (.invalidParams details) fromBlock toBlock =
        .error .parse := by
      simp [getRetryRanges, hsw, hparse]
    simp only [ethGetLogs, hrpc, hranges]
  · intro hrpc hinc hparse
    have hranges : getRetryRanges (.limitExceeded details) fromBlock toBlock =
        .error .parse := by
      simp [getRetryRanges, hinc, hparse]
    simp only [ethGetLogs, hrpc, hranges]

/-- Witness for the amended C4 at the concrete unparsable-details mock. -/
theorem ethGetLogs_unparsable_suggestion_fails_witness :
    ethGetLogs badRpc 10 0 1000 = (.error .parse, [(0, 1000)]) :=
  (ethGetLogs_unparsable_suggestion_fails badRpc 9 0 1000
      "Log response size exceeded.").1 rfl (by decide) (by decide)

/-! ## The block-task gate (C2) -/

theorem find?_key_filter_ne {bn b : Int} (h : bn ≠ b) :
    ∀ cbs : List (Int × List BlockCallback),
      (cbs.filter (fun p => p.1 ≠ b)).find? (fun p => p.1 = bn) =
        cbs.find? (fun p => p.1 = bn) := by
  intro cbs
  induction cbs with
  | nil => rfl
  | cons p rest ih =>
    by_cases hp : p.1 = b
    · have hq : ¬p.1 = bn := fun hh => h (hh.symm.trans hp)
      rw [List.filter_cons_of_neg (by simp [hp]),
        List.find?_cons_of_neg _ (by simp [hq]), ih]
    · by_cases hq : p.1 = bn
      · rw [List.filter_cons_of_pos (by simp [hp]),
          List.find?_cons_of_pos _ (by simp [hq]),
          List.find?_cons_of_pos _ (by simp [hq])]
      · rw [List.filter_cons_of_pos (by simp [hp]),
          List.find?_cons_of_neg _ (by simp [hq]),
          List.find?_cons_of_neg _ (by simp [hq]), ih]

theorem lookupCallbacks_eraseCallbacks {bn b : Int} (h : bn ≠ b)
    (cbs : List (Int × List BlockCallback)) :
    lookupCallbacks bn (eraseCallbacks b cbs) = lookupCallbacks bn cbs := by
  unfold lookupCallbacks eraseCallbacks
  rw [find?_key_filter_ne h]

theorem enqueueBlockLoop_queue :
    ∀ (blocks : List Int), blocks.Nodup →
      ∀ (cbs : List (Int × List BlockCallback)) (q : List QueuedTask),
        (enqueueBlockLoop blocks cbs q).2 = q ++ blocks.map (fun bn =>
          ⟨.blockT bn (lookupCallbacks bn cbs),
           MAX_SAFE_INTEGER - bn, false⟩) := by
  intro blocks
  induction blocks with
  | nil => intro _ cbs q; simp [enqueueBlockLoop]
  | cons b rest ih =>
    intro hnd cbs q
    rw [enqueueBlockLoop, ih (List.Nodup.of_cons hnd), List.map_cons,
      List.append_assoc, List.singleton_append]
    congr 2
    apply List.map_congr_left
    intro bn hbn
    have hne : bn ≠ b := fun hh => (List.nodup_cons.mp hnd).1 (hh ▸ hbn)
    rw [lookupCallbacks_eraseCallbacks hne]

theorem enqueueBlockLoop_callbacks :
    ∀ (blocks : List Int) (cbs : List (Int × List BlockCallback))
      (q : List QueuedTask),
      (enqueueBlockLoop blocks cbs q).1 =
        cbs.filter (fun p => !blocks.contains p.1) := by
  intro blocks
  induction blocks with
  | nil => intro cbs q; simp [enqueueBlockLoop]
  | cons b rest ih =>
    intro cbs q
    rw [enqueueBlockLoop, ih]
    unfold eraseCallbacks
    rw [List.filter_filter]
    apply List.filter_congr
    intro p _
    by_cases h1 : p.1 = b <;> by_cases h2 : p.1 ∈ rest <;>
      simp [h1, h2, List.contains_cons]

/-- C2: `enqueueBlockTasks` takes `T` as the minimum checkpoint across the
log-filter, factory-child-address and factory-log-filter trackers; when `T`
exceeds `blockTasksEnqueuedCheckpoint` it enqueues one block task (with that
key's callbacks, at priority `MAX_SAFE_INTEGER - blockNumber`) for exactly
the callback keys `≤ T`, registers them as pending, deletes them, and
advances `blockTasksEnqueuedCheckpoint` to `T`; otherwise it changes
nothing. -/
theorem enqueueBlockTasks_spec (s : GateState) (T : JsNum)
    (hT : T = jsMinList (s.logFilterCheckpoints ++
      s.factoryChildAddressCheckpoints ++ s.factoryLogFilterCheckpoints))
    (hnd : (s.blockCallbacks.map Prod.fst).Nodup) :
    (jsLt s.blockTasksEnqueuedCheckpoint T = true →
      (enqueueBlockTasks s).queue = s.queue ++
        ((s.blockCallbacks.map Prod.fst).filter
          (fun bn => jsLeFin bn T)).map (fun bn =>
            ⟨.blockT bn (lookupCallbacks bn s.blockCallbacks),
             MAX_SAFE_INTEGER - bn, false⟩) ∧
      (enqueueBlockTasks s).blockPending =
        ((s.blockCallbacks.map Prod.fst).filter
          (fun bn => jsLeFin bn T)).foldl
          (fun acc n => List.orderedInsert (fun a b => a ≤ b) n acc)
          s.blockPending ∧
      (enqueueBlockTasks s).blockCallbacks =
        s.blockCallbacks.filter (fun p => !jsLeFin p.1 T) ∧
      (enqueueBlockTasks s).blockTasksEnqueuedCheckpoint = T) ∧
    (jsLt s.blockTasksEnqueuedCheckpoint T = false →
      enqueueBlockTasks s = s) := by
  subst hT
  have hndf : ((s.blockCallbacks.map Prod.fst).filter (fun bn =>
      jsLeFin bn (jsMinList (s.logFilterCheckpoints ++
        s.factoryChildAddressCheckpoints ++
        s.factoryLogFilterCheckpoints)))).Nodup := List.Nodup.filter _ hnd
  constructor
  · intro hlt
    simp only [enqueueBlockTasks]
    rw [if_pos hlt]
    refine ⟨enqueueBlockLoop_queue _ hndf s.blockCallbacks s.queue, rfl,
      ?_, rfl⟩
    rw [enqueueBlockLoop_callbacks _ s.blockCallbacks s.queue]
    apply List.filter_congr
    intro p hp
    have hkey : p.1 ∈ s.blockCallbacks.map Prod.fst :=
      List.mem_map_of_mem Prod.fst hp
    by_cases hle : jsLeFin p.1 (jsMinList (s.logFilterCheckpoints ++
        s.factoryChildAddressCheckpoints ++
        s.factoryLogFilterCheckpoints)) = true
    · have hmem : p.1 ∈ (s.blockCallbacks.map Prod.fst).filter (fun bn =>
          jsLeFin bn (jsMinList (s.logFilterCheckpoints ++
            s.factoryChildAddressCheckpoints ++
            s.factoryLogFilterCheckpoints))) :=
        List.mem_filter.mpr ⟨hkey, hle⟩
      simp only [List.append_assoc] at hmem hle
      simp [List.contains, List.elem_eq_mem, hmem, hle]
    · have hmem : p.1 ∉ (s.blockCallbacks.map Prod.fst).filter (fun bn =>
          jsLeFin bn (jsMinList (s.logFilterCheckpoints ++
            s.factoryChildAddressCheckpoints ++
            s.factoryLogFilterCheckpoints))) := by
        intro hc
        exact hle (List.mem_filter.mp hc).2
      simp only [List.append_assoc] at hmem hle
      simp [List.contains, List.elem_eq_mem, hmem, hle]
  · intro hlt
    simp only [enqueueBlockTasks]
    rw [if_neg]
    intro hc
    rw [hc] at hlt
    cases hlt

/-- Witness for C2 on `gateExample`: `T = min(7, 9) = 7` exceeds the stored
checkpoint 0, so the callback key 5 (but not 8) becomes a block task. -/
theorem enqueueBlockTasks_spec_witness :
    (enqueueBlockTasks gateExample).queue =
      [⟨.blockT 5 [], MAX_SAFE_INTEGER - 5, false⟩] ∧
    (enqueueBlockTasks gateExample).blockPending = [5] ∧
    (enqueueBlockTasks gateExample).blockCallbacks = [(8, [])] ∧
    (enqueueBlockTasks gateExample).blockTasksEnqueuedCheckpoint =
      JsNum.fin 7 := by
  have h := (enqueueBlockTasks_spec gateExample (JsNum.fin 7) (by decide)
    (by decide)).1 (by decide)
  exact ⟨h.1.trans (by decide), h.2.1.trans (by decide),
    h.2.2.1.trans (by decide), h.2.2.2⟩

/-! ## The factory-child-address worker (C5) -/

theorem getChunksAux_width (maxWidth : Nat) (hw : 1 ≤ maxWidth) :
    ∀ (fuel : Nat) (a b : Int), ∀ c ∈ getChunksAux maxWidth fuel a b,
      c.2 - c.1 + 1 ≤ (maxWidth : Int) := by
  intro fuel
  induction fuel with
  | zero => intro a b c hc; simp [getChunksAux] at hc
  | succ f ih =>
    intro a b c hc
    rw [getChunksAux] at hc
    split at hc
    · simp at hc
    · split at hc
      next hle =>
        rw [List.mem_singleton] at hc
        subst hc
        exact hle
      · rcases List.mem_cons.mp hc with rfl | hc
        · simp only []
          omega
        · exact ih _ _ _ hc

theorem getChunks_width (maxChunkSize : Nat) (hw : 1 ≤ maxChunkSize)
    (intervals : List (Int × Int)) :
    ∀ c ∈ getChunks maxChunkSize intervals,
      c.2 - c.1 + 1 ≤ (maxChunkSize : Int) := by
  intro c hc
  unfold getChunks at hc
  rcases List.mem_flatten.mp hc with ⟨l, hl, hcl⟩
  rcases List.mem_map.mp hl with ⟨iv, _, rfl⟩
  exact getChunksAux_width _ hw _ _ _ _ hcl

/-- C5: after its fetch and persist, the factory-child-address worker calls
`addCompletedInterval` on the factory-child-address tracker; when the
checkpoint advanced (`isUpdated`) it enqueues factory-log-filter tasks whose
ranges are exactly the chunks of `[prevCheckpoint + 1, newCheckpoint]` by
`maxBlockRange ?? defaultMaxBlockRange` (each of width at most that bound),
at priority `MAX_SAFE_INTEGER - fromBlock`; when `isUpdated` is false it
enqueues nothing. -/
theorem factoryChildAddressTaskWorker_spec (maxBlockRange : Option Nat)
    (defaultMaxBlockRange : Nat) (fromBlock toBlock : Int)
    (logs : List RpcLog) (tracker : ProgressTracker)
    (cbs : List (Int × List BlockCallback)) (queue : List QueuedTask) :
    (factoryChildAddressTaskWorker maxBlockRange defaultMaxBlockRange
        fromBlock toBlock logs tracker cbs queue).tracker =
      (tracker.addCompletedInterval (fromBlock, toBlock)).1 ∧
    ((tracker.addCompletedInterval (fromBlock, toBlock)).2.isUpdated = true →
      (factoryChildAddressTaskWorker maxBlockRange defaultMaxBlockRange
          fromBlock toBlock logs tracker cbs queue).queue =
        queue ++ (getChunks (maxBlockRange.getD defaultMaxBlockRange)
          [((tracker.addCompletedInterval (fromBlock, toBlock)).2.prevCheckpoint + 1,
            (tracker.addCompletedInterval (fromBlock, toBlock)).2.newCheckpoint)]).map
          (fun c => ⟨.factoryLogFilterT c.1 c.2,
                     MAX_SAFE_INTEGER - c.1, false⟩)) ∧
    ((tracker.addCompletedInterval (fromBlock, toBlock)).2.isUpdated = false →
      (factoryChildAddressTaskWorker maxBlockRange defaultMaxBlockRange
          fromBlock toBlock logs tracker cbs queue).queue = queue) ∧
    (1 ≤ maxBlockRange.getD defaultMaxBlockRange →
      ∀ c ∈ getChunks (maxBlockRange.getD defaultMaxBlockRange)
        [((tracker.addCompletedInterval (fromBlock, toBlock)).2.prevCheckpoint + 1,
          (tracker.addCompletedInterval (fromBlock, toBlock)).2.newCheckpoint)],
        c.2 - c.1 + 1 ≤ (maxBlockRange.getD defaultMaxBlockRange : Int)) := by
  refine ⟨rfl, ?_, ?_, fun hw => getChunks_width _ hw _⟩
  · intro hupd
    simp only [factoryChildAddressTaskWorker]
    rw [if_pos hupd]
  · intro hupd
    simp only [factoryChildAddressTaskWorker]
    rw [if_neg]
    rw [hupd]
    exact Bool.false_ne_true

/-- Witness for C5: a fresh tracker over `[0, 99]` completing `[0, 59]`
advances the checkpoint from `-1` to `59`, producing three 25-wide chunks of
factory-log-filter tasks. -/
theorem factoryChildAddressTaskWorker_spec_witness :
    (factoryChildAddressTaskWorker none 25 0 59 []
        (ProgressTracker.new (0, 99) []) [] []).queue =
      [] ++ [⟨.factoryLogFilterT 0 24, MAX_SAFE_INTEGER - 0, false⟩,
             ⟨.factoryLogFilterT 25 49, MAX_SAFE_INTEGER - 25, false⟩,
             ⟨.factoryLogFilterT 50 59, MAX_SAFE_INTEGER - 50, false⟩] ∧
    (factoryChildAddressTaskWorker none 25 0 59 []
        (ProgressTracker.new (0, 99) []) [] []).tracker =
      ((ProgressTracker.new (0, 99) []).addCompletedInterval (0, 59)).1 := by
  have h := factoryChildAddressTaskWorker_spec none 25 0 59 []
    (ProgressTracker.new (0, 99) []) [] []
  exact ⟨(h.2.1 (by decide)).trans (by decide), h.1⟩

/-! ## Factory setup (C6) -/

/-- C6: for a factory source whose historical sync is required, `setup()`
initialises the factory-child-address and factory-log-filter trackers over
the same target `[startBlock, endBlock]`, and the factory-log-filter tasks it
enqueues are exactly the chunks (by `maxBlockRange ?? defaultMaxBlockRange`)
of the required factory-log-filter intervals minus the required
factory-child-address intervals, each at priority
`MAX_SAFE_INTEGER - fromBlock`. -/
theorem setupFactorySource_spec (startBlock endBlock : Int)
    (maxBlockRange : Option Nat) (defaultMaxBlockRange : Nat)
    (completedFactoryChildAddressIntervals : List (Int × Int))
    (completedFactoryLogFilterIntervals : List (Int × Int)) :
    (setupFactorySource startBlock endBlock maxBlockRange
        defaultMaxBlockRange completedFactoryChildAddressIntervals
        completedFactoryLogFilterIntervals).1.target =
      (startBlock, endBlock) ∧
    (setupFactorySource startBlock endBlock maxBlockRange
        defaultMaxBlockRange completedFactoryChildAddressIntervals
        completedFactoryLogFilterIntervals).2.1.target =
      (startBlock, endBlock) ∧
    (setupFactorySource startBlock endBlock maxBlockRange
        defaultMaxBlockRange completedFactoryChildAddressIntervals
        completedFactoryLogFilterIntervals).2.2.filter isFactoryLogFilterTask =
      (getChunks (maxBlockRange.getD defaultMaxBlockRange)
        (intervalDifference
          (ProgressTracker.new (startBlock, endBlock)
            completedFactoryLogFilterIntervals).getRequired
          (ProgressTracker.new (startBlock, endBlock)
            completedFactoryChildAddressIntervals).getRequired)).map
        (fun c => ⟨.factoryLogFilterT c.1 c.2,
                   MAX_SAFE_INTEGER - c.1, false⟩) := by
  refine ⟨rfl, rfl, ?_⟩
  simp only [setupFactorySource]
  rw [List.filter_append]
  rw [List.filter_map, List.filter_map]
  have h1 : ∀ c : Int × Int,
      (isFactoryLogFilterTask ∘ fun c =>
        (⟨.factoryChildAddressT c.1 c.2, MAX_SAFE_INTEGER - c.1, false⟩ :
          QueuedTask)) c = false := fun _ => rfl
  have h2 : ∀ c : Int × Int,
      (isFactoryLogFilterTask ∘ fun c =>
        (⟨.factoryLogFilterT c.1 c.2, MAX_SAFE_INTEGER - c.1, false⟩ :
          QueuedTask)) c = true := fun _ => rfl
  rw [List.filter_congr (fun c _ => h1 c), List.filter_congr (fun c _ => h2 c),
    List.filter_false, List.filter_true, List.map_nil, List.nil_append]

/-! ## SyncGateway checkpoint recalculation (C9) -/

theorem jsLe_refl (a : JsNum) : jsLe a a = true := by
  cases a <;> simp [jsLe, jsLeFin]

theorem jsLe_of_jsLt {a b : JsNum} (h : jsLt a b = true) : jsLe a b = true := by
  cases a with
  | fin x =>
    cases b with
    | fin y =>
      simp [jsLt, jsLtFin] at h
      simp [jsLe, jsLeFin]
      omega
    | inf => rfl
  | inf =>
    cases b with
    | fin y => exact absurd h (by simp [jsLt])
    | inf => rfl

theorem recalculateCheckpoint_mono (s : SyncGatewayState) :
    jsLe s.checkpoint (recalculateCheckpoint s).1.checkpoint = true := by
  unfold recalculateCheckpoint
  split
  next h => exact jsLe_of_jsLt h
  next => exact jsLe_refl _

/-- C9: `handleNewHistoricalCheckpoint` and `handleNewRealtimeCheckpoint`
never decrease the gateway's composite checkpoint; for a registered chain id
they recompute the minimum over all networks of (historical checkpoint if
historical sync incomplete, else max of historical and realtime checkpoints)
and store it and emit `newCheckpoint` exactly when it strictly exceeds the
stored checkpoint. -/
theorem syncGateway_checkpoint_monotone (s : SyncGatewayState)
    (chainId : Nat) (timestamp : Int) :
    jsLe s.checkpoint
      (handleNewHistoricalCheckpoint s chainId timestamp).1.checkpoint =
      true ∧
    jsLe s.checkpoint
      (handleNewRealtimeCheckpoint s chainId timestamp).1.checkpoint =
      true ∧
    ((s.networkCheckpoints.map Prod.fst).contains chainId = true →
      ((jsLt s.checkpoint (jsMinList ((updateNetwork chainId
          (fun n => { n with historicalCheckpoint := timestamp })
          s.networkCheckpoints).map (fun p =>
            if p.2.isHistoricalSyncComplete then
              max p.2.historicalCheckpoint p.2.realtimeCheckpoint
            else p.2.historicalCheckpoint))) = true →
        (handleNewHistoricalCheckpoint s chainId timestamp).1.checkpoint =
          jsMinList ((updateNetwork chainId
            (fun n => { n with historicalCheckpoint := timestamp })
            s.networkCheckpoints).map (fun p =>
              if p.2.isHistoricalSyncComplete then
                max p.2.historicalCheckpoint p.2.realtimeCheckpoint
              else p.2.historicalCheckpoint)) ∧
        (handleNewHistoricalCheckpoint s chainId timestamp).2 =
          [.newCheckpoint (jsMinList ((updateNetwork chainId
            (fun n => { n with historicalCheckpoint := timestamp })
            s.networkCheckpoints).map (fun p =>
              if p.2.isHistoricalSyncComplete then
                max p.2.historicalCheckpoint p.2.realtimeCheckpoint
              else p.2.historicalCheckpoint)))]) ∧
      (jsLt s.checkpoint (jsMinList ((updateNetwork chainId
          (fun n => { n with historicalCheckpoint := timestamp })
          s.networkCheckpoints).map (fun p =>
            if p.2.isHistoricalSyncComplete then
              max p.2.historicalCheckpoint p.2.realtimeCheckpoint
            else p.2.historicalCheckpoint))) = false →
        (handleNewHistoricalCheckpoint s chainId timestamp).1.checkpoint =
          s.checkpoint ∧
        (handleNewHistoricalCheckpoint s chainId timestamp).2 = []))) ∧
    ((s.networkCheckpoints.map Prod.fst).contains chainId = true →
      ((jsLt s.checkpoint (jsMinList ((updateNetwork chainId
          (fun n => { n with realtimeCheckpoint := timestamp })
          s.networkCheckpoints).map (fun p =>
            if p.2.isHistoricalSyncComplete then
              max p.2.historicalCheckpoint p.2.realtimeCheckpoint
            else p.2.historicalCheckpoint))) = true →
        (handleNewRealtimeCheckpoint s chainId timestamp).1.checkpoint =
          jsMinList ((updateNetwork chainId
            (fun n => { n with realtimeCheckpoint := timestamp })
            s.networkCheckpoints).map (fun p =>
              if p.2.isHistoricalSyncComplete then
                max p.2.historicalCheckpoint p.2.realtimeCheckpoint
              else p.2.historicalCheckpoint)) ∧
        (handleNewRealtimeCheckpoint s chainId timestamp).2 =
          [.newCheckpoint (jsMinList ((updateNetwork chainId
            (fun n => { n with realtimeCheckpoint := timestamp })
            s.networkCheckpoints).map (fun p =>
              if p.2.isHistoricalSyncComplete then
                max p.2.historicalCheckpoint p.2.realtimeCheckpoint
              else p.2.historicalCheckpoint)))]) ∧
      (jsLt s.checkpoint (jsMinList ((updateNetwork chainId
          (fun n => { n with realtimeCheckpoint := timestamp })
          s.networkCheckpoints).map (fun p =>
            if p.2.isHistoricalSyncComplete then
              max p.2.historicalCheckpoint p.2.realtimeCheckpoint
            else p.2.historicalCheckpoint))) = false →
        (handleNewRealtimeCheckpoint s chainId timestamp).1.checkpoint =
          s.checkpoint ∧
        (handleNewRealtimeCheckpoint s chainId timestamp).2 = []))) := by
  refine ⟨?_, ?_, ?_, ?_⟩
  · unfold handleNewHistoricalCheckpoint
    split
    · exact recalculateCheckpoint_mono
        { s with networkCheckpoints := (updateNetwork chainId
            (fun n => { n with historicalCheckpoint := timestamp })
            s.networkCheckpoints) }
    · exact jsLe_refl _
  · unfold handleNewRealtimeCheckpoint
    split
    · exact recalculateCheckpoint_mono
        { s with networkCheckpoints := (updateNetwork chainId
            (fun n => { n with realtimeCheckpoint := timestamp })
            s.networkCheckpoints) }
    · exact jsLe_refl _
  · intro hc
    unfold handleNewHistoricalCheckpoint
    rw [if_pos hc]
    unfold recalculateCheckpoint networkEffectiveCheckpoint
    constructor
    · intro hlt
      rw [if_pos hlt]
      exact ⟨rfl, rfl⟩
    · intro hlt
      rw [if_neg (by rw [hlt]; exact Bool.false_ne_true)]
      exact ⟨rfl, rfl⟩
  · intro hc
    unfold handleNewRealtimeCheckpoint
    rw [if_pos hc]
    unfold recalculateCheckpoint networkEffectiveCheckpoint
    constructor
    · intro hlt
      rw [if_pos hlt]
      exact ⟨rfl, rfl⟩
    · intro hlt
      rw [if_neg (by rw [hlt]; exact Bool.false_ne_true)]
      exact ⟨rfl, rfl⟩

/-- Witness for C9: one registered network (chain id 1); a historical
checkpoint at 5 raises the composite checkpoint from 0 to 5 and emits
`newCheckpoint`. -/
theorem syncGateway_checkpoint_monotone_witness :
    jsLe (initialGatewayState [1]).checkpoint
      (handleNewHistoricalCheckpoint (initialGatewayState [1]) 1 5).1.checkpoint =
      true ∧
    (handleNewHistoricalCheckpoint
      (initialGatewayState [1]) 1 5).1.checkpoint = JsNum.fin 5 ∧
    (handleNewHistoricalCheckpoint (initialGatewayState [1]) 1 5).2 =
      [.newCheckpoint (JsNum.fin 5)] := by
  have h := syncGateway_checkpoint_monotone (initialGatewayState [1]) 1 5
  have h2 := (h.2.2.1 (by decide)).1 (by decide)
  exact ⟨h.1, h2.1.trans (by decide), h2.2.trans (by decide)⟩

/-! ## SyncGateway completion tracking (C10) -/

theorem recalculateCheckpoint_networks (s : SyncGatewayState) :
    (recalculateCheckpoint s).1.networkCheckpoints = s.networkCheckpoints := by
  unfold recalculateCheckpoint
  split <;> rfl

theorem recalculateCheckpoint_completedAt (s : SyncGatewayState) :
    (recalculateCheckpoint s).1.historicalSyncCompletedAt =
      s.historicalSyncCompletedAt := by
  unfold recalculateCheckpoint
  split <;> rfl

theorem recalculateFinalityCheckpoint_networks (s : SyncGatewayState) :
    (recalculateFinalityCheckpoint s).1.networkCheckpoints =
      s.networkCheckpoints := by
  unfold recalculateFinalityCheckpoint
  split <;> rfl

theorem recalculateFinalityCheckpoint_completedAt (s : SyncGatewayState) :
    (recalculateFinalityCheckpoint s).1.historicalSyncCompletedAt =
      s.historicalSyncCompletedAt := by
  unfold recalculateFinalityCheckpoint
  split <;> rfl

theorem flagIn_updateNetwork_mono {chainId : Nat}
    {f : NetworkCheckpoints → NetworkCheckpoints}
    (hf : ∀ n, n.isHistoricalSyncComplete = true →
      (f n).isHistoricalSyncComplete = true) :
    ∀ (l : List (Nat × NetworkCheckpoints)) (cid : Nat),
      flagIn l cid = true → flagIn (updateNetwork chainId f l) cid = true := by
  intro l
  induction l with
  | nil => intro cid h; exact h
  | cons p rest ih =>
    intro cid h
    unfold updateNetwork
    by_cases hp : p.1 = chainId
    · rw [if_pos hp]
      unfold flagIn at h ⊢
      by_cases hc : p.1 = cid
      · rw [List.find?_cons_of_pos _ (by simp [hc])] at h ⊢
        exact hf _ h
      · rw [List.find?_cons_of_neg _ (by simp [hc])] at h ⊢
        exact h
    · rw [if_neg hp]
      unfold flagIn at h ⊢
      by_cases hc : p.1 = cid
      · rw [List.find?_cons_of_pos _ (by simp [hc])] at h ⊢
        exact h
      · rw [List.find?_cons_of_neg _ (by simp [hc])] at h ⊢
        exact ih cid h

theorem all_updateNetwork {chainId : Nat}
    {f : NetworkCheckpoints → NetworkCheckpoints}
    (hf : ∀ n, n.isHistoricalSyncComplete = true →
      (f n).isHistoricalSyncComplete = true) :
    ∀ l : List (Nat × NetworkCheckpoints),
      l.all (fun p => p.2.isHistoricalSyncComplete) = true →
      (updateNetwork chainId f l).all
        (fun p => p.2.isHistoricalSyncComplete) = true := by
  intro l
  induction l with
  | nil => intro h; exact h
  | cons p rest ih =>
    intro h
    rw [List.all_cons, Bool.and_eq_true] at h
    unfold updateNetwork
    by_cases hp : p.1 = chainId
    · rw [if_pos hp, List.all_cons, Bool.and_eq_true]
      exact ⟨hf _ h.1, h.2⟩
    · rw [if_neg hp, List.all_cons, Bool.and_eq_true]
      exact ⟨h.1, ih h.2⟩

theorem applyGatewayOp_flag_mono (s : SyncGatewayState) (op : GatewayOp) :
    ∀ cid, flagOf s cid = true → flagOf (applyGatewayOp s op).1 cid = true := by
  intro cid h
  cases op with
  | newHistoricalCheckpoint c ts =>
    simp only [applyGatewayOp, handleNewHistoricalCheckpoint]
    split
    · unfold flagOf
      rw [recalculateCheckpoint_networks]
      exact @flagIn_updateNetwork_mono c
        (fun n => { n with historicalCheckpoint := ts })
        (fun n hn => hn) s.networkCheckpoints cid h
    · exact h
  | newRealtimeCheckpoint c ts =>
    simp only [applyGatewayOp, handleNewRealtimeCheckpoint]
    split
    · unfold flagOf
      rw [recalculateCheckpoint_networks]
      exact @flagIn_updateNetwork_mono c
        (fun n => { n with realtimeCheckpoint := ts })
        (fun n hn => hn) s.networkCheckpoints cid h
    · exact h
  | newFinalityCheckpoint c ts =>
    simp only [applyGatewayOp, handleNewFinalityCheckpoint]
    split
    · unfold flagOf
      rw [recalculateFinalityCheckpoint_networks]
      exact @flagIn_updateNetwork_mono c
        (fun n => { n with finalityCheckpoint := ts })
        (fun n hn => hn) s.networkCheckpoints cid h
    · exact h
  | historicalSyncComplete c =>
    simp only [applyGatewayOp, handleHistoricalSyncComplete]
    split
    · split
      · unfold flagOf
        rw [recalculateCheckpoint_networks]
        exact @flagIn_updateNetwork_mono c
          (fun n => { n with isHistoricalSyncComplete := true })
          (fun n _ => rfl) s.networkCheckpoints cid h
      · unfold flagOf
        rw [recalculateCheckpoint_networks]
        exact @flagIn_updateNetwork_mono c
          (fun n => { n with isHistoricalSyncComplete := true })
          (fun n _ => rfl) s.networkCheckpoints cid h
    · exact h
  | reorg t => exact h

theorem applyGatewayOp_allComplete (s : SyncGatewayState) (op : GatewayOp)
    (h : allHistoricalSyncComplete s = true) :
    allHistoricalSyncComplete (applyGatewayOp s op).1 = true := by
  cases op with
  | newHistoricalCheckpoint c ts =>
    simp only [applyGatewayOp, handleNewHistoricalCheckpoint]
    split
    · unfold allHistoricalSyncComplete
      rw [recalculateCheckpoint_networks]
      exact @all_updateNetwork c
        (fun n => { n with historicalCheckpoint := ts })
        (fun n hn => hn) s.networkCheckpoints h
    · exact h
  | newRealtimeCheckpoint c ts =>
    simp only [applyGatewayOp, handleNewRealtimeCheckpoint]
    split
    · unfold allHistoricalSyncComplete
      rw [recalculateCheckpoint_networks]
      exact @all_updateNetwork c
        (fun n => { n with realtimeCheckpoint := ts })
        (fun n hn => hn) s.networkCheckpoints h
    · exact h
  | newFinalityCheckpoint c ts =>
    simp only [applyGatewayOp, handleNewFinalityCheckpoint]
    split
    · unfold allHistoricalSyncComplete
      rw [recalculateFinalityCheckpoint_networks]
      exact @all_updateNetwork c
        (fun n => { n with finalityCheckpoint := ts })
        (fun n hn => hn) s.networkCheckpoints h
    · exact h
  | historicalSyncComplete c =>
    simp only [applyGatewayOp, handleHistoricalSyncComplete]
    split
    · split
      · unfold allHistoricalSyncComplete
        rw [recalculateCheckpoint_networks]
        exact @all_updateNetwork c
          (fun n => { n with isHistoricalSyncComplete := true })
          (fun n _ => rfl) s.networkCheckpoints h
      · unfold allHistoricalSyncComplete
        rw [recalculateCheckpoint_networks]
        exact @all_updateNetwork c
          (fun n => { n with isHistoricalSyncComplete := true })
          (fun n _ => rfl) s.networkCheckpoints h
    · exact h
  | reorg t => exact h

theorem applyGatewayOp_completedAt (s : SyncGatewayState) (op : GatewayOp) :
    (applyGatewayOp s op).1.historicalSyncCompletedAt =
      s.historicalSyncCompletedAt ∨
    (∃ cid, op = .historicalSyncComplete cid ∧
      allHistoricalSyncComplete (applyGatewayOp s op).1 = true ∧
      (applyGatewayOp s op).1.historicalSyncCompletedAt = some (maxListD
        ((applyGatewayOp s op).1.networkCheckpoints.map
          (fun p => p.2.historicalCheckpoint)))) := by
  cases op with
  | newHistoricalCheckpoint c ts =>
    left
    simp only [applyGatewayOp, handleNewHistoricalCheckpoint]
    split
    · exact recalculateCheckpoint_completedAt _
    · rfl
  | newRealtimeCheckpoint c ts =>
    left
    simp only [applyGatewayOp, handleNewRealtimeCheckpoint]
    split
    · exact recalculateCheckpoint_completedAt _
    · rfl
  | newFinalityCheckpoint c ts =>
    left
    simp only [applyGatewayOp, handleNewFinalityCheckpoint]
    split
    · exact recalculateFinalityCheckpoint_completedAt _
    · rfl
  | historicalSyncComplete c =>
    simp only [applyGatewayOp, handleHistoricalSyncComplete]
    split
    · split
      next hall =>
        right
        refine ⟨c, rfl, ?_, rfl⟩
        exact hall
      next =>
        left
        exact recalculateCheckpoint_completedAt _
    · left; rfl
  | reorg t => left; rfl

theorem applyGatewayOp_invariant (s : SyncGatewayState) (op : GatewayOp)
    (hinv : s.historicalSyncCompletedAt ≠ none →
      allHistoricalSyncComplete s = true) :
    (applyGatewayOp s op).1.historicalSyncCompletedAt ≠ none →
      allHistoricalSyncComplete (applyGatewayOp s op).1 = true := by
  intro hne
  rcases applyGatewayOp_completedAt s op with h | ⟨cid, _, hall, _⟩
  · exact applyGatewayOp_allComplete s op (hinv (h ▸ hne))
  · exact hall

theorem applyGatewayOps_invariant (ops : List GatewayOp) :
    ∀ s : SyncGatewayState,
      (s.historicalSyncCompletedAt ≠ none →
        allHistoricalSyncComplete s = true) →
      (applyGatewayOps s ops).historicalSyncCompletedAt ≠ none →
      allHistoricalSyncComplete (applyGatewayOps s ops) = true := by
  induction ops with
  | nil => intro s h; exact h
  | cons op rest ih =>
    intro s h
    unfold applyGatewayOps at *
    rw [List.foldl_cons]
    exact ih _ (applyGatewayOp_invariant s op h)

/-- C10: `historicalSyncCompletedAt` stays `undefined` until
`handleHistoricalSyncComplete` has run for every registered network; the call
that completes the last network sets it to the maximum historical checkpoint
across the networks; and no operation ever resets a network's
`isHistoricalSyncComplete` flag. -/
theorem syncGateway_completedAt_spec (s : SyncGatewayState) (op : GatewayOp) :
    (∀ cid, flagOf s cid = true → flagOf (applyGatewayOp s op).1 cid = true) ∧
    ((applyGatewayOp s op).1.historicalSyncCompletedAt ≠
        s.historicalSyncCompletedAt →
      ∃ cid, op = .historicalSyncComplete cid ∧
        allHistoricalSyncComplete (applyGatewayOp s op).1 = true ∧
        (applyGatewayOp s op).1.historicalSyncCompletedAt = some (maxListD
          ((applyGatewayOp s op).1.networkCheckpoints.map
            (fun p => p.2.historicalCheckpoint)))) ∧
    (∀ cid, op = .historicalSyncComplete cid →
      (s.networkCheckpoints.map Prod.fst).contains cid = true →
      allHistoricalSyncComplete (applyGatewayOp s op).1 = true →
      (applyGatewayOp s op).1.historicalSyncCompletedAt = some (maxListD
        ((applyGatewayOp s op).1.networkCheckpoints.map
          (fun p => p.2.historicalCheckpoint)))) ∧
    (∀ (chainIds : List Nat) (ops : List GatewayOp),
      (applyGatewayOps (initialGatewayState chainIds)
        ops).historicalSyncCompletedAt ≠ none →
      allHistoricalSyncComplete
        (applyGatewayOps (initialGatewayState chainIds) ops) = true) := by
  refine ⟨applyGatewayOp_flag_mono s op, ?_, ?_, ?_⟩
  · intro hne
    rcases applyGatewayOp_completedAt s op with h | h
    · exact absurd h hne
    · exact h
  · intro cid hop hc hall
    subst hop
    simp only [applyGatewayOp, handleHistoricalSyncComplete] at hall ⊢
    rw [if_pos hc] at hall ⊢
    split at hall
    next h2 =>
      rw [if_pos h2]
    next h2 =>
      exact absurd hall h2
  · intro chainIds ops
    refine applyGatewayOps_invariant ops (initialGatewayState chainIds) ?_
    intro hne
    exact absurd rfl hne

/-- Witness for C10 with two registered networks: after completing network 1,
`historicalSyncCompletedAt` is still unset; completing network 2 sets it to
the maximum historical checkpoint (here 0), and flags persist. -/
theorem syncGateway_completedAt_spec_witness :
    (applyGatewayOps (initialGatewayState [1, 2])
      [.historicalSyncComplete 1]).historicalSyncCompletedAt = none ∧
    (applyGatewayOp (applyGatewayOps (initialGatewayState [1, 2])
        [.historicalSyncComplete 1])
      (.historicalSyncComplete 2)).1.historicalSyncCompletedAt =
      some (maxListD (((applyGatewayOp (applyGatewayOps
        (initialGatewayState [1, 2]) [.historicalSyncComplete 1])
        (.historicalSyncComplete 2)).1.networkCheckpoints).map
          (fun p => p.2.historicalCheckpoint))) ∧
    flagOf (applyGatewayOp (applyGatewayOps (initialGatewayState [1, 2])
      [.historicalSyncComplete 1]) (.historicalSyncComplete 2)).1 1 = true := by
  refine ⟨by decide, ?_, ?_⟩
  · exact (syncGateway_completedAt_spec (applyGatewayOps
      (initialGatewayState [1, 2]) [.historicalSyncComplete 1])
      (.historicalSyncComplete 2)).2.2.1 2 rfl (by decide) (by decide)
  · exact (syncGateway_completedAt_spec (applyGatewayOps
      (initialGatewayState [1, 2]) [.historicalSyncComplete 1])
      (.historicalSyncComplete 2)).1 1 (by decide)

end Ponder
